import Mathlib

/-!
Verification of the hackTheChat outreach assistant.

This file gives a shallow embedding of the core logic of the repository:
the email validator of `src/config/welcomeFlow.ts`, the cosine-similarity
and top-match retrieval of `src/database/vectorSearch.ts`, the ranked
similarity search of `src/database/firestore.ts`, the LinkedIn enrichment
merge of `src/routes/contact-enrichment.ts`, and the welcome-flow state
machine of `src/handlers/welcomeFlow.ts`.  JavaScript `undefined` and
`null` are both modelled as `Option.none` (or as the empty string for the
string fields that the code only ever tests for truthiness); JavaScript
numbers are modelled as exact numbers (`Int`/`ℝ`).
-/

namespace HackTheChat

/-! ### JavaScript-style string primitives -/

/-- JavaScript `a || b` for strings: `a` is falsy exactly when it is `""`
(absent and `null` string fields are also modelled as `""`). -/
def jsOr (a b : String) : String := if a = "" then b else a

/-- JavaScript `s.toLowerCase()`, modelled character by character. -/
def jsToLower (s : String) : String := ⟨s.data.map Char.toLower⟩

/-- JavaScript `s.trim()`: strip leading and trailing whitespace. -/
def jsTrim (s : String) : String :=
  ⟨((s.data.dropWhile Char.isWhitespace).reverse.dropWhile Char.isWhitespace).reverse⟩

/-- Helper for JavaScript `text.includes(pat)`: is `pat` a contiguous
substring of the character list? -/
def containsSub (pat : List Char) : List Char → Bool
  | [] => pat.isEmpty
  | c :: rest => pat.isPrefixOf (c :: rest) || containsSub pat rest

/-- JavaScript `s.includes(pat)`. -/
def strIncludes (s pat : String) : Bool := containsSub pat.data s.data

/-- JavaScript `s.split(sep)` for a one-character separator, on character
lists.  `splitOnChar '@' "a@b"` gives `["a", "b"]`, and a trailing
separator produces a trailing empty segment, as in JavaScript. -/
def splitOnChar (sep : Char) : List Char → List (List Char)
  | [] => [[]]
  | c :: rest =>
    if c = sep then [] :: splitOnChar sep rest
    else
      match splitOnChar sep rest with
      | [] => [[c]]
      | seg :: segs => (c :: seg) :: segs

/-- JavaScript `jid.split('@')[0]`, used throughout the welcome flow to
derive a phone number from a WhatsApp JID. -/
def firstSegment (sep : Char) (s : String) : String :=
  ⟨(splitOnChar sep s.data).headD []⟩

/-! ### Email validation (`src/config/welcomeFlow.ts`)

The validator tests the candidate against the regular expression
`^[a-zA-Z0-9._%+-]+@[a-zA-Z0-9.-]+\.[a-zA-Z]{2,}$` and then, only when the
`checkBlockedDomains` flag is on, rejects candidates whose lowercased
domain (`email.split('@')[1]`) appears in the configured block-list. -/

/-- Character class `[a-zA-Z0-9._%+-]` of the regex local part. -/
def isLocalChar (c : Char) : Bool :=
  c.isAlpha || c.isDigit || c = '.' || c = '_' || c = '%' || c = '+' || c = '-'

/-- Character class `[a-zA-Z0-9.-]` of the regex domain part. -/
def isDomainChar (c : Char) : Bool :=
  c.isAlpha || c.isDigit || c = '.' || c = '-'

/-- Character class `[a-zA-Z]` of the regex final label. -/
def isTldChar (c : Char) : Bool := c.isAlpha

/-- Matcher for the suffix `[a-zA-Z0-9.-]+\.[a-zA-Z]{2,}$` of the regex:
only the last dot of the remainder can separate the domain from the final
label (the label admits no dot), so the split is read off the reversed
remainder. -/
def matchDomain (r : List Char) : Bool :=
  !(r.reverse.dropWhile (fun c => !(c = '.'))).isEmpty &&
    decide (2 ≤ (r.reverse.takeWhile (fun c => !(c = '.'))).length) &&
    (r.reverse.takeWhile (fun c => !(c = '.'))).all isTldChar &&
    !((r.reverse.dropWhile (fun c => !(c = '.'))).tail).isEmpty &&
    ((r.reverse.dropWhile (fun c => !(c = '.'))).tail).all isDomainChar

/-- The anchored regex `^[a-zA-Z0-9._%+-]+@[a-zA-Z0-9.-]+\.[a-zA-Z]{2,}$`
of `welcomeFlowConfig.emailValidation.regex`.  Since neither character
class contains `'@'`, the local part is exactly the (necessarily
`'@'`-free) segment before the first `'@'`. -/
def emailRegexMatch (s : String) : Bool :=
  ((s.data.dropWhile (fun c => !(c = '@'))).headD ' ' = '@') &&
    !(s.data.takeWhile (fun c => !(c = '@'))).isEmpty &&
    (s.data.takeWhile (fun c => !(c = '@'))).all isLocalChar &&
    matchDomain ((s.data.dropWhile (fun c => !(c = '@'))).tail)

/-- The `emailValidation` block of `welcomeFlowConfig`. -/
structure EmailValidationConfig where
  blockedDomains : List String := []
  checkBlockedDomains : Bool := false
deriving Repr, DecidableEq

/-- The configured `welcomeFlowConfig.emailValidation` value. -/
def welcomeFlowEmailValidation : EmailValidationConfig :=
  { blockedDomains := [], checkBlockedDomains := false }

/-- `validateEmail` of `src/config/welcomeFlow.ts`. -/
def validateEmail (config : EmailValidationConfig) (email : String) : Bool :=
  if !emailRegexMatch email then
    false
  else
    if config.checkBlockedDomains then
      match ((splitOnChar '@' email.data).map (fun cs => String.mk cs)).get? 1 with
      | some d =>
        let domain := jsToLower d
        if !(domain = "") && config.blockedDomains.contains domain then false
        else true
      | none => true
    else true

/-- The shape described by the specification: `local-part@domain.tld` with
ASCII letters/digits/`._%+-` in the local part, letters/digits/`.`/`-` in
the domain, and a final label of at least two letters. -/
def emailShape (s : String) : Prop :=
  ∃ l d t : List Char,
    s.data = l ++ '@' :: (d ++ '.' :: t) ∧
    l ≠ [] ∧ (∀ c ∈ l, isLocalChar c = true) ∧
    d ≠ [] ∧ (∀ c ∈ d, isDomainChar c = true) ∧
    2 ≤ t.length ∧ (∀ c ∈ t, isTldChar c = true)

/-- The domain of an email candidate as the specification reads it: the
substring after the `'@'`. -/
def domainAfterAt (s : String) : String :=
  ⟨(s.data.dropWhile (fun c => !(c = '@'))).tail⟩

/-! ### List helper lemmas -/

theorem takeWhile_append_cons {α : Type} (p : α → Bool) (xs : List α) (y : α) (ys : List α)
    (h1 : ∀ x ∈ xs, p x = true) (h2 : p y = false) :
    (xs ++ y :: ys).takeWhile p = xs := by
  induction xs with
  | nil => simp [List.takeWhile_cons, h2]
  | cons a as ih =>
    have ha := h1 a (List.mem_cons_self a as)
    simp [List.takeWhile_cons, ha, ih (fun x hx => h1 x (List.mem_cons_of_mem a hx))]

theorem dropWhile_append_cons {α : Type} (p : α → Bool) (xs : List α) (y : α) (ys : List α)
    (h1 : ∀ x ∈ xs, p x = true) (h2 : p y = false) :
    (xs ++ y :: ys).dropWhile p = y :: ys := by
  induction xs with
  | nil => simp [List.dropWhile_cons, h2]
  | cons a as ih =>
    have ha := h1 a (List.mem_cons_self a as)
    simp [List.dropWhile_cons, ha, ih (fun x hx => h1 x (List.mem_cons_of_mem a hx))]

theorem dropWhile_head_false {α : Type} (p : α → Bool) :
    ∀ (l : List α) (c : α) (r : List α), l.dropWhile p = c :: r → p c = false := by
  intro l
  induction l with
  | nil => intro c r h; exact absurd h (by simp)
  | cons a as ih =>
    intro c r h
    rw [List.dropWhile_cons] at h
    by_cases ha : p a = true
    · rw [if_pos ha] at h
      exact ih c r h
    · rw [if_neg ha] at h
      injection h with h1 h2
      subst h1
      simpa using ha

theorem emailRegexMatch_iff (s : String) : emailRegexMatch s = true ↔ emailShape s := by
  constructor
  · intro h
    unfold emailRegexMatch at h
    rw [Bool.and_assoc, Bool.and_assoc, Bool.and_eq_true, Bool.and_eq_true,
      Bool.and_eq_true] at h
    obtain ⟨hhead, hne, hall, hdom⟩ := h
    rcases hrest : s.data.dropWhile (fun c => !(c = '@')) with _ | ⟨c, r⟩
    · rw [hrest] at hhead
      exact absurd hhead (by decide)
    · rw [hrest] at hhead hdom
      have hc : c = '@' := by simpa using hhead
      subst hc
      rw [List.tail_cons] at hdom
      unfold matchDomain at hdom
      rw [Bool.and_assoc, Bool.and_assoc, Bool.and_assoc, Bool.and_eq_true, Bool.and_eq_true,
        Bool.and_eq_true, Bool.and_eq_true] at hdom
      obtain ⟨hd1, ht2, htall, hdne, hdall⟩ := hdom
      rcases hrest2 : r.reverse.dropWhile (fun c => !(c = '.')) with _ | ⟨c2, drev⟩
      · rw [hrest2] at hd1
        exact absurd hd1 (by decide)
      · have hc2 : c2 = '.' := by
          have := dropWhile_head_false _ r.reverse c2 drev hrest2
          simpa using this
        subst hc2
        rw [hrest2, List.tail_cons] at hdne hdall
        refine ⟨s.data.takeWhile (fun c => !(c = '@')),
          drev.reverse, (r.reverse.takeWhile (fun c => !(c = '.'))).reverse,
          ?_, ?_, ?_, ?_, ?_, ?_, ?_⟩
        · have hsplit := List.takeWhile_append_dropWhile (p := fun c => !(c = '@')) (l := s.data)
          rw [hrest] at hsplit
          have hr : r = drev.reverse ++ '.' :: (r.reverse.takeWhile (fun c => !(c = '.'))).reverse := by
            have hsplit2 := List.takeWhile_append_dropWhile (p := fun c => !(c = '.')) (l := r.reverse)
            rw [hrest2] at hsplit2
            calc r = r.reverse.reverse := by rw [List.reverse_reverse]
              _ = (r.reverse.takeWhile (fun c => !(c = '.')) ++ '.' :: drev).reverse := by
                  rw [hsplit2]
              _ = drev.reverse ++ '.' :: (r.reverse.takeWhile (fun c => !(c = '.'))).reverse := by
                  rw [List.reverse_append, List.reverse_cons, List.append_assoc]
                  simp
          rw [← hr]
          exact hsplit.symm
        · intro hemp
          rw [hemp] at hne
          exact absurd hne (by simp)
        · exact fun c hc => (List.all_eq_true.mp hall) c hc
        · intro hemp
          have hnil : drev = [] := by simpa using hemp
          rw [hnil] at hdne
          exact absurd hdne (by simp)
        · intro c hc
          exact (List.all_eq_true.mp hdall) c (List.mem_reverse.mp hc)
        · simpa using ht2
        · intro c hc
          exact (List.all_eq_true.mp htall) c (List.mem_reverse.mp hc)
  · rintro ⟨l, d, t, hs, hl0, hl, hd0, hd, ht2, ht⟩
    have hql : ∀ x ∈ l, (!(x = '@')) = true := by
      intro x hx
      have hx' := hl x hx
      simp only [Bool.not_eq_eq_eq_not, Bool.not_true, decide_eq_false_iff_not]
      intro hxe
      rw [hxe] at hx'
      exact absurd hx' (by decide)
    have hdw : s.data.dropWhile (fun c => !(c = '@')) = '@' :: (d ++ '.' :: t) := by
      rw [hs]
      exact dropWhile_append_cons _ l '@' _ hql (by decide)
    have htw : s.data.takeWhile (fun c => !(c = '@')) = l := by
      rw [hs]
      exact takeWhile_append_cons _ l '@' _ hql (by decide)
    have hqt : ∀ x ∈ t.reverse, (!(x = '.')) = true := by
      intro x hx
      have hx' := ht x (List.mem_reverse.mp hx)
      simp only [Bool.not_eq_eq_eq_not, Bool.not_true, decide_eq_false_iff_not]
      intro hxe
      rw [hxe] at hx'
      exact absurd hx' (by decide)
    have hrev : (d ++ '.' :: t).reverse = t.reverse ++ '.' :: d.reverse := by
      rw [List.reverse_append, List.reverse_cons, List.append_assoc]
      simp
    unfold emailRegexMatch matchDomain
    rw [hdw, htw, List.tail_cons, hrev,
      dropWhile_append_cons _ t.reverse '.' _ hqt (by decide),
      takeWhile_append_cons _ t.reverse '.' _ hqt (by decide), List.tail_cons]
    simp only [Bool.and_eq_true, decide_eq_true_eq, List.all_eq_true, List.length_reverse,
      List.headD_cons, Bool.not_eq_eq_eq_not, Bool.not_false, List.mem_reverse]
    simp [List.isEmpty_iff, hl0, hd0, ht2, List.mem_reverse]
    exact ⟨hl, ht, hd⟩



theorem splitOnChar_no_sep (sep : Char) :
    ∀ cs : List Char, (∀ x ∈ cs, ¬x = sep) → splitOnChar sep cs = [cs] := by
  intro cs
  induction cs with
  | nil => intro; rfl
  | cons c rest ih =>
    intro h
    have hc : ¬c = sep := h c (List.mem_cons_self c rest)
    rw [splitOnChar, if_neg hc, ih (fun x hx => h x (List.mem_cons_of_mem c hx))]

theorem splitOnChar_first (sep : Char) (l rest : List Char) (h : ∀ x ∈ l, ¬x = sep) :
    splitOnChar sep (l ++ sep :: rest) = l :: splitOnChar sep rest := by
  induction l with
  | nil => rw [List.nil_append, splitOnChar, if_pos rfl]
  | cons c cs ih =>
    have hc : ¬c = sep := h c (List.mem_cons_self c cs)
    rw [List.cons_append, splitOnChar, if_neg hc,
      ih (fun x hx => h x (List.mem_cons_of_mem c hx))]

theorem validateEmail_iff (config : EmailValidationConfig) (email : String) :
    validateEmail config email = true ↔
      (emailShape email ∧ (config.checkBlockedDomains = true →
        config.blockedDomains.contains (jsToLower (domainAfterAt email)) = false)) := by
  rcases hm : emailRegexMatch email with _ | _
  · rw [validateEmail, hm]
    simp only [Bool.not_false, if_true]
    constructor
    · intro h; exact absurd h (by decide)
    · rintro ⟨hshape, -⟩
      exact absurd ((emailRegexMatch_iff email).mpr hshape) (by simp [hm])
  · have hshape := (emailRegexMatch_iff email).mp hm
    obtain ⟨l, d, t, hs, hl0, hl, hd0, hd, ht2, ht⟩ := hshape
    have hrest_no : ∀ x ∈ d ++ '.' :: t, ¬x = '@' := by
      intro x hx
      rcases List.mem_append.mp hx with hxd | hxt
      · intro he
        have := hd x hxd
        rw [he] at this
        exact absurd this (by decide)
      · rcases List.mem_cons.mp hxt with rfl | hxt'
        · decide
        · intro he
          have := ht x hxt'
          rw [he] at this
          exact absurd this (by decide)
    have hl_no : ∀ x ∈ l, ¬x = '@' := by
      intro x hx he
      have := hl x hx
      rw [he] at this
      exact absurd this (by decide)
    have hsplit : splitOnChar '@' email.data = [l, d ++ '.' :: t] := by
      rw [hs, splitOnChar_first '@' l _ hl_no, splitOnChar_no_sep '@' _ hrest_no]
    have hdom : domainAfterAt email = ⟨d ++ '.' :: t⟩ := by
      rw [domainAfterAt, hs,
        dropWhile_append_cons _ l '@' _
          (fun x hx => by simpa using hl_no x hx) (by decide),
        List.tail_cons]
    rw [validateEmail, hm]
    simp only [Bool.not_true, Bool.false_eq_true, if_false]
    have hshape' : emailShape email := (emailRegexMatch_iff email).mp hm
    rcases hcb : config.checkBlockedDomains with _ | _
    · simp [hshape']
    · simp only [if_true]
      rw [hsplit]
      simp only [List.map_cons, List.map_nil, List.get?]
      have hne : ¬jsToLower (String.mk (d ++ '.' :: t)) = "" := by
        unfold jsToLower
        intro he
        have h2 := congrArg String.data he
        simp at h2
      rw [hdom]
      rcases hcont : config.blockedDomains.contains (jsToLower (String.mk (d ++ '.' :: t))) with _ | _
      · simp [hne, hcont, hshape']
      · simp [hne, hcont, hshape']


/-! ### Claim C6: email validation -/

/-- C6: a candidate string is accepted by `validateEmail` iff it matches
the shape `local-part@domain.tld` (ASCII letters/digits/`._%+-` local
part, letters/digits/`.`/`-` domain, final label of at least two
letters) and, only when the check-blocked-domains flag is enabled, its
lowercased domain (the substring after `@`) is absent from the configured
block-list; in particular `"patrick@gomry.com"` is accepted while
`"patrick@@gomry"`, `""` and `"patrick.com"` are rejected. -/
theorem C6_validateEmail_spec :
    (∀ (config : EmailValidationConfig) (email : String),
        validateEmail config email = true ↔
          (emailShape email ∧ (config.checkBlockedDomains = true →
            config.blockedDomains.contains (jsToLower (domainAfterAt email)) = false))) ∧
    validateEmail welcomeFlowEmailValidation "patrick@gomry.com" = true ∧
    validateEmail welcomeFlowEmailValidation "patrick@@gomry" = false ∧
    validateEmail welcomeFlowEmailValidation "" = false ∧
    validateEmail welcomeFlowEmailValidation "patrick.com" = false :=
  ⟨validateEmail_iff, by decide, by decide, by decide, by decide⟩

/-- Witness for C6 at a concrete input: `"patrick@gomry.com"` has the
specified shape, obtained through the equivalence. -/
theorem C6_validateEmail_spec_witness : emailShape "patrick@gomry.com" :=
  ((C6_validateEmail_spec.1 welcomeFlowEmailValidation "patrick@gomry.com").mp
    (by decide)).1


/-! ### Cosine similarity (`src/database/vectorSearch.ts` and
`src/services/autoVectorization.ts`)

Both files implement the same accumulator loop over the two vectors;
JavaScript numbers are modelled as real numbers, and the thrown
dimension-mismatch `Error` as `Except.error`. -/

/-- The accumulator loop `for (i...) dotProduct += a[i]*b[i]`, written as
structural recursion over the two (equal-length) lists. -/
def dotp : List ℝ → List ℝ → ℝ
  | a :: as, b :: bs => a * b + dotp as bs
  | _, _ => 0

open Classical in
/-- `cosineSimilarity` of `src/database/vectorSearch.ts`: throws on a
length mismatch, returns `0` when either accumulated square-norm is `0`,
and otherwise divides the dot product by the product of the root norms. -/
noncomputable def cosineSimilarity (vecA vecB : List ℝ) : Except String ℝ :=
  if vecA.length ≠ vecB.length then .error "Vectors must have the same length"
  else if dotp vecA vecA = 0 ∨ dotp vecB vecB = 0 then .ok 0
  else .ok (dotp vecA vecB / (Real.sqrt (dotp vecA vecA) * Real.sqrt (dotp vecB vecB)))

open Classical in
/-- `calculateCosineSimilarity` of `src/services/autoVectorization.ts`:
identical loop, but the zero test is on the product `magnitude` of the two
root norms. -/
noncomputable def calculateCosineSimilarity (vectorA vectorB : List ℝ) : Except String ℝ :=
  if vectorA.length ≠ vectorB.length then .error "Vectors must have the same dimension"
  else if Real.sqrt (dotp vectorA vectorA) * Real.sqrt (dotp vectorB vectorB) = 0 then .ok 0
  else .ok (dotp vectorA vectorB /
    (Real.sqrt (dotp vectorA vectorA) * Real.sqrt (dotp vectorB vectorB)))

/-- The Euclidean norm `‖a‖` as the specification writes it. -/
noncomputable def vecNorm (a : List ℝ) : ℝ :=
  Real.sqrt ((a.map (fun x => x ^ 2)).sum)

open Classical in
/-- Modelled from the spec: the value `(Σ aᵢbᵢ) / (‖a‖·‖b‖)`, defined as
`0` if either norm is zero. -/
noncomputable def specCosine (a b : List ℝ) : ℝ :=
  if vecNorm a = 0 ∨ vecNorm b = 0 then 0
  else (List.zipWith (fun x y => x * y) a b).sum / (vecNorm a * vecNorm b)

theorem dotp_self_eq_sumsq (a : List ℝ) : dotp a a = (a.map (fun x => x ^ 2)).sum := by
  induction a with
  | nil => simp [dotp]
  | cons x xs ih => simp [dotp, ih, sq]

theorem dotp_eq_zipWith_sum :
    ∀ a b : List ℝ, dotp a b = (List.zipWith (fun x y => x * y) a b).sum := by
  intro a
  induction a with
  | nil => intro b; cases b <;> simp [dotp]
  | cons x xs ih =>
    intro b
    cases b with
    | nil => simp [dotp]
    | cons y ys => simp [dotp, ih]

theorem dotp_self_nonneg (a : List ℝ) : 0 ≤ dotp a a := by
  rw [dotp_self_eq_sumsq]
  apply List.sum_nonneg
  intro x hx
  obtain ⟨y, -, rfl⟩ := List.mem_map.mp hx
  positivity

theorem vecNorm_eq_zero_iff (a : List ℝ) : vecNorm a = 0 ↔ dotp a a = 0 := by
  rw [vecNorm, ← dotp_self_eq_sumsq]
  constructor
  · intro h
    have h2 := Real.sqrt_eq_zero'.mp h
    exact le_antisymm h2 (dotp_self_nonneg a)
  · intro h
    rw [h, Real.sqrt_zero]

theorem sqrt_dotp_self (a : List ℝ) : Real.sqrt (dotp a a) = vecNorm a := by
  rw [vecNorm, dotp_self_eq_sumsq]

/-! ### Claim C4: cosine similarity -/

/-- C4: on equal-length vectors both cosine implementations return
`(Σ aᵢbᵢ) / (‖a‖·‖b‖)`, with result `0` whenever either norm is zero, and
on vectors of different lengths both fail with an error instead of
truncating. -/
theorem C4_cosineSimilarity_spec (a b : List ℝ) :
    (a.length ≠ b.length →
      cosineSimilarity a b = .error "Vectors must have the same length" ∧
      calculateCosineSimilarity a b = .error "Vectors must have the same dimension") ∧
    (a.length = b.length →
      cosineSimilarity a b = .ok (specCosine a b) ∧
      calculateCosineSimilarity a b = .ok (specCosine a b)) ∧
    (a.length = b.length → vecNorm a = 0 ∨ vecNorm b = 0 →
      cosineSimilarity a b = .ok 0 ∧ calculateCosineSimilarity a b = .ok 0) := by
  have hcond : (dotp a a = 0 ∨ dotp b b = 0) ↔ (vecNorm a = 0 ∨ vecNorm b = 0) := by
    rw [vecNorm_eq_zero_iff, vecNorm_eq_zero_iff]
  have hmag : (Real.sqrt (dotp a a) * Real.sqrt (dotp b b) = 0) ↔
      (vecNorm a = 0 ∨ vecNorm b = 0) := by
    rw [mul_eq_zero, sqrt_dotp_self, sqrt_dotp_self]
  have hsucc : a.length = b.length →
      cosineSimilarity a b = .ok (specCosine a b) ∧
      calculateCosineSimilarity a b = .ok (specCosine a b) := by
    intro heq
    by_cases hz : vecNorm a = 0 ∨ vecNorm b = 0
    · constructor
      · unfold cosineSimilarity
        rw [if_neg (by simpa using heq), if_pos (hcond.mpr hz), specCosine, if_pos hz]
      · unfold calculateCosineSimilarity
        rw [if_neg (by simpa using heq), if_pos (hmag.mpr hz), specCosine, if_pos hz]
    · constructor
      · unfold cosineSimilarity
        rw [if_neg (by simpa using heq), if_neg (fun hc => hz (hcond.mp hc)),
          specCosine, if_neg hz, dotp_eq_zipWith_sum, sqrt_dotp_self, sqrt_dotp_self]
      · unfold calculateCosineSimilarity
        rw [if_neg (by simpa using heq), if_neg (fun hc => hz (hmag.mp hc)),
          specCosine, if_neg hz, dotp_eq_zipWith_sum, sqrt_dotp_self, sqrt_dotp_self]
  refine ⟨?_, hsucc, ?_⟩
  · intro hne
    constructor
    · unfold cosineSimilarity
      rw [if_pos hne]
    · unfold calculateCosineSimilarity
      rw [if_pos hne]
  · intro heq hz
    obtain ⟨h1, h2⟩ := hsucc heq
    rw [h1, h2, specCosine, if_pos hz]
    exact ⟨rfl, rfl⟩

/-- Witness for C4 at concrete vectors: `[1, 2]` against `[2, 3]`
(equal length) and `[1]` against `[1, 2]` (mismatch). -/
theorem C4_cosineSimilarity_spec_witness :
    cosineSimilarity [(1 : ℝ), 2] [2, 3] = .ok (specCosine [(1 : ℝ), 2] [2, 3]) ∧
    cosineSimilarity [(1 : ℝ)] [1, 2] = .error "Vectors must have the same length" :=
  ⟨((C4_cosineSimilarity_spec [(1 : ℝ), 2] [2, 3]).2.1 (by simp)).1,
    ((C4_cosineSimilarity_spec [(1 : ℝ)] [1, 2]).1 (by simp)).1⟩

theorem cosineSimilarity_eq_ok (a b : List ℝ) (heq : a.length = b.length) :
    cosineSimilarity a b = .ok (specCosine a b) := by
  have hcond : (dotp a a = 0 ∨ dotp b b = 0) ↔ (vecNorm a = 0 ∨ vecNorm b = 0) := by
    rw [vecNorm_eq_zero_iff, vecNorm_eq_zero_iff]
  by_cases hz : vecNorm a = 0 ∨ vecNorm b = 0
  · unfold cosineSimilarity
    rw [if_neg (by simpa using heq), if_pos (hcond.mpr hz), specCosine, if_pos hz]
  · unfold cosineSimilarity
    rw [if_neg (by simpa using heq), if_neg (fun hc => hz (hcond.mp hc)),
      specCosine, if_neg hz, dotp_eq_zipWith_sum, sqrt_dotp_self, sqrt_dotp_self]

/-! ### Top-match retrieval (`src/database/vectorSearch.ts`)

`findTopMatch` scans every stored contact, skips those without an
embedding, and keeps the running strict maximum above the threshold. -/

namespace VectorSearch

/-- A stored contact as `findTopMatch` reads it: only the identity and the
optional embedding matter to the scan. -/
structure Contact where
  jid : String
  embedding : Option (List ℝ) := none

/-- The `SimilarContactResult` of `src/database/vectorSearch.ts`. -/
structure SimilarContactResult where
  contact : Contact
  similarity : ℝ

open Classical in
/-- The `for (const contact of contacts)` loop of `findTopMatch`, carrying
the running `topMatch` and `highestSimilarity` accumulators; a
`cosineSimilarity` exception aborts the whole scan. -/
noncomputable def findTopMatchLoop (queryVector : List ℝ) :
    List Contact → Option SimilarContactResult → ℝ →
      Except String (Option SimilarContactResult)
  | [], best, _ => .ok best
  | c :: rest, best, highest =>
    match c.embedding with
    | none => findTopMatchLoop queryVector rest best highest
    | some e =>
      match cosineSimilarity queryVector e with
      | .error msg => .error msg
      | .ok s =>
        if highest < s then findTopMatchLoop queryVector rest (some ⟨c, s⟩) s
        else findTopMatchLoop queryVector rest best highest

open Classical in
/-- `findTopMatch` of `src/database/vectorSearch.ts`: `null` when the
store is unavailable or empty, otherwise the result of the scan starting
from `topMatch = null` and `highestSimilarity = minSimilarity`; any thrown
error is caught and converted to `null`. -/
noncomputable def findTopMatch (db : Option (List Contact)) (queryVector : List ℝ)
    (minSimilarity : ℝ) : Option SimilarContactResult :=
  match db with
  | none => none
  | some contacts =>
    if contacts.length = 0 then none
    else
      match findTopMatchLoop queryVector contacts none minSimilarity with
      | .ok r => r
      | .error _ => none

theorem findTopMatchLoop_le (q : List ℝ) :
    ∀ (cs : List Contact) (best : Option SimilarContactResult) (h : ℝ),
      (∀ c ∈ cs, ∀ e, c.embedding = some e → e.length = q.length) →
      (∀ c ∈ cs, ∀ e, c.embedding = some e → specCosine q e ≤ h) →
      findTopMatchLoop q cs best h = .ok best := by
  intro cs
  induction cs with
  | nil => intro best h _ _; rfl
  | cons c rest ih =>
    intro best h Hlen Hb
    rcases hemb : c.embedding with _ | e
    · simp only [findTopMatchLoop, hemb]
      exact ih best h (fun c' hc' => Hlen c' (List.mem_cons_of_mem c hc'))
        (fun c' hc' => Hb c' (List.mem_cons_of_mem c hc'))
    · have hlen := Hlen c (List.mem_cons_self c rest) e hemb
      have hs := Hb c (List.mem_cons_self c rest) e hemb
      simp only [findTopMatchLoop, hemb, cosineSimilarity_eq_ok q e hlen.symm]
      rw [if_neg (not_lt.mpr hs)]
      exact ih best h (fun c' hc' => Hlen c' (List.mem_cons_of_mem c hc'))
        (fun c' hc' => Hb c' (List.mem_cons_of_mem c hc'))

theorem findTopMatchLoop_spec (q : List ℝ) :
    ∀ (cs : List Contact) (best : Option SimilarContactResult) (h : ℝ),
      (∀ c ∈ cs, ∀ e, c.embedding = some e → e.length = q.length) →
      ∃ res, findTopMatchLoop q cs best h = .ok res ∧
        ((res = best ∧ ∀ c ∈ cs, ∀ e, c.embedding = some e → specCosine q e ≤ h) ∨
         (∃ pre c e post, cs = pre ++ c :: post ∧ c.embedding = some e ∧
           res = some ⟨c, specCosine q e⟩ ∧ h < specCosine q e ∧
           (∀ c' ∈ pre, ∀ e', c'.embedding = some e' →
             specCosine q e' < specCosine q e) ∧
           (∀ c' ∈ post, ∀ e', c'.embedding = some e' →
             specCosine q e' ≤ specCosine q e))) := by
  intro cs
  induction cs with
  | nil =>
    intro best h _
    exact ⟨best, rfl, Or.inl ⟨rfl, by simp⟩⟩
  | cons c rest ih =>
    intro best h Hlen
    have Hrest := fun c' hc' => Hlen c' (List.mem_cons_of_mem c hc')
    rcases hemb : c.embedding with _ | e
    · obtain ⟨res, hloop, hcase⟩ := ih best h Hrest
      refine ⟨res, by simp only [findTopMatchLoop, hemb]; exact hloop, ?_⟩
      rcases hcase with ⟨hres, hbound⟩ | ⟨pre, c', e', post, hcs, hemb', hres, hlt, hpre, hpost⟩
      · refine Or.inl ⟨hres, ?_⟩
        intro c' hc' e' hemb'
        rcases List.mem_cons.mp hc' with rfl | hc''
        · rw [hemb] at hemb'
          exact absurd hemb' (by simp)
        · exact hbound c' hc'' e' hemb'
      · refine Or.inr ⟨c :: pre, c', e', post, by rw [hcs, List.cons_append], hemb', hres, hlt, ?_, hpost⟩
        intro c'' hc'' e'' hemb''
        rcases List.mem_cons.mp hc'' with rfl | hc'''
        · rw [hemb] at hemb''
          exact absurd hemb'' (by simp)
        · exact hpre c'' hc''' e'' hemb''
    · have hlen := Hlen c (List.mem_cons_self c rest) e hemb
      by_cases hlt : h < specCosine q e
      · obtain ⟨res, hloop, hcase⟩ := ih (some ⟨c, specCosine q e⟩) (specCosine q e) Hrest
        refine ⟨res, ?_, ?_⟩
        · simp only [findTopMatchLoop, hemb, cosineSimilarity_eq_ok q e hlen.symm]
          rw [if_pos hlt]
          exact hloop
        rcases hcase with ⟨hres, hbound⟩ | ⟨pre, c', e', post, hcs, hemb', hres, hlt', hpre, hpost⟩
        · exact Or.inr ⟨[], c, e, rest, by simp, hemb, hres, hlt, by simp, hbound⟩
        · refine Or.inr ⟨c :: pre, c', e', post, by rw [hcs, List.cons_append], hemb', hres,
            lt_trans hlt hlt', ?_, hpost⟩
          intro c'' hc'' e'' hemb''
          rcases List.mem_cons.mp hc'' with rfl | hc'''
          · rw [hemb] at hemb''
            injection hemb'' with he
            rw [← he]
            exact hlt'
          · exact hpre c'' hc''' e'' hemb''
      · obtain ⟨res, hloop, hcase⟩ := ih best h Hrest
        refine ⟨res, ?_, ?_⟩
        · simp only [findTopMatchLoop, hemb, cosineSimilarity_eq_ok q e hlen.symm]
          rw [if_neg hlt]
          exact hloop
        rcases hcase with ⟨hres, hbound⟩ | ⟨pre, c', e', post, hcs, hemb', hres, hlt', hpre, hpost⟩
        · refine Or.inl ⟨hres, ?_⟩
          intro c' hc' e' hemb'
          rcases List.mem_cons.mp hc' with rfl | hc''
          · rw [hemb] at hemb'
            injection hemb' with he
            rw [← he]
            exact not_lt.mp hlt
          · exact hbound c' hc'' e' hemb'
        · refine Or.inr ⟨c :: pre, c', e', post, by rw [hcs, List.cons_append], hemb', hres, hlt', ?_, hpost⟩
          intro c'' hc'' e'' hemb''
          rcases List.mem_cons.mp hc'' with rfl | hc'''
          · rw [hemb] at hemb''
            injection hemb'' with he
            rw [← he]
            exact lt_of_le_of_lt (not_lt.mp hlt) hlt'
          · exact hpre c'' hc''' e'' hemb''

end VectorSearch

/-! ### Claim C5: top-match retrieval -/

/-- C5: provided every stored embedding has the query's dimension,
`findTopMatch` scores every candidate that has an embedding, returns
`none` exactly when no candidate scores strictly above the threshold
(a normal outcome), and otherwise returns the first-scanned candidate
achieving the maximal similarity (strictly above the threshold, with
every earlier candidate strictly below it — ties favour the first). -/
theorem C5_findTopMatch_spec (contacts : List VectorSearch.Contact) (q : List ℝ) (θ : ℝ)
    (Hlen : ∀ c ∈ contacts, ∀ e, c.embedding = some e → e.length = q.length) :
    (VectorSearch.findTopMatch (some contacts) q θ = none ↔
      ∀ c ∈ contacts, ∀ e, c.embedding = some e → specCosine q e ≤ θ) ∧
    (∀ r, VectorSearch.findTopMatch (some contacts) q θ = some r →
      θ < r.similarity ∧
      (∀ c ∈ contacts, ∀ e, c.embedding = some e → specCosine q e ≤ r.similarity) ∧
      ∃ pre c e post, contacts = pre ++ c :: post ∧ c.embedding = some e ∧
        r = ⟨c, specCosine q e⟩ ∧
        ∀ c' ∈ pre, ∀ e', c'.embedding = some e' → specCosine q e' < r.similarity) ∧
    VectorSearch.findTopMatch none q θ = none := by
  refine ⟨?_, ?_, rfl⟩
  · by_cases hnil : contacts = []
    · subst hnil
      simp only [VectorSearch.findTopMatch, List.length_nil, if_pos rfl]
      constructor
      · intro _ c hc
        exact absurd hc (List.not_mem_nil c)
      · intro _
        rfl
    · obtain ⟨res, hloop, hcase⟩ := VectorSearch.findTopMatchLoop_spec q contacts none θ Hlen
      have hlen0 : ¬contacts.length = 0 := by
        simpa [List.length_eq_zero] using hnil
      simp only [VectorSearch.findTopMatch, if_neg hlen0, hloop]
      constructor
      · intro hres
        rcases hcase with ⟨-, hbound⟩ | ⟨pre, c, e, post, hcs, hemb, hres', hlt, -, -⟩
        · exact hbound
        · rw [hres'] at hres
          exact absurd hres (by simp)
      · intro hbound
        have := VectorSearch.findTopMatchLoop_le q contacts none θ Hlen hbound
        rw [this] at hloop
        injection hloop with h
        exact h.symm
  · intro r hr
    by_cases hnil : contacts = []
    · subst hnil
      simp only [VectorSearch.findTopMatch, List.length_nil, if_pos rfl] at hr
      exact absurd hr (by simp)
    · obtain ⟨res, hloop, hcase⟩ := VectorSearch.findTopMatchLoop_spec q contacts none θ Hlen
      have hlen0 : ¬contacts.length = 0 := by
        simpa [List.length_eq_zero] using hnil
      simp only [VectorSearch.findTopMatch, if_neg hlen0, hloop] at hr
      rcases hcase with ⟨hres, -⟩ | ⟨pre, c, e, post, hcs, hemb, hres, hlt, hpre, hpost⟩
      · rw [hres] at hr
        exact absurd hr (by simp)
      · rw [hres] at hr
        injection hr with hr'
        subst hr'
        refine ⟨hlt, ?_, pre, c, e, post, hcs, hemb, rfl, hpre⟩
        intro c' hc' e' hemb'
        rw [hcs] at hc'
        rcases List.mem_append.mp hc' with hc'' | hc''
        · exact le_of_lt (hpre c' hc'' e' hemb')
        · rcases List.mem_cons.mp hc'' with rfl | hc'''
          · rw [hemb] at hemb'
            injection hemb' with he
            rw [← he]
          · exact hpost c' hc''' e' hemb'

/-- Witness for C5 at a concrete store: the single candidate `"a"` with
embedding `[0, 1]` is orthogonal to the query `[1, 0]`, so the retrieval
returns `none`. -/
theorem C5_findTopMatch_spec_witness :
    VectorSearch.findTopMatch
      (some [{ jid := "a", embedding := some [0, 1] }]) [(1 : ℝ), 0] 0.3 = none := by
  refine (C5_findTopMatch_spec [{ jid := "a", embedding := some [0, 1] }] [(1 : ℝ), 0] 0.3
    ?_).1.mpr ?_
  · intro c hc e he
    rcases List.mem_singleton.mp hc with rfl
    injection he with he'
    rw [← he']
    rfl
  · intro c hc e he
    rcases List.mem_singleton.mp hc with rfl
    injection he with he'
    rw [← he']
    have hz : ¬(vecNorm [(1 : ℝ), 0] = 0 ∨ vecNorm [(0 : ℝ), 1] = 0) := by
      rw [vecNorm, vecNorm]
      norm_num
    rw [specCosine, if_neg hz]
    norm_num

theorem calculateCosineSimilarity_eq_ok (a b : List ℝ) (heq : a.length = b.length) :
    calculateCosineSimilarity a b = .ok (specCosine a b) := by
  have hmag : (Real.sqrt (dotp a a) * Real.sqrt (dotp b b) = 0) ↔
      (vecNorm a = 0 ∨ vecNorm b = 0) := by
    rw [mul_eq_zero, sqrt_dotp_self, sqrt_dotp_self]
  by_cases hz : vecNorm a = 0 ∨ vecNorm b = 0
  · unfold calculateCosineSimilarity
    rw [if_neg (by simpa using heq), if_pos (hmag.mpr hz), specCosine, if_pos hz]
  · unfold calculateCosineSimilarity
    rw [if_neg (by simpa using heq), if_neg (fun hc => hz (hmag.mp hc)),
      specCosine, if_neg hz, dotp_eq_zipWith_sum, sqrt_dotp_self, sqrt_dotp_self]

theorem calculateCosineSimilarity_eq_error (a b : List ℝ) (hne : a.length ≠ b.length) :
    calculateCosineSimilarity a b = .error "Vectors must have the same dimension" := by
  unfold calculateCosineSimilarity
  rw [if_pos hne]

/-! ### Ranked similarity search (`src/database/firestore.ts`)

`findSimilarContacts` scores every vectorized contact, catching the
per-candidate similarity error, keeps scores `>= minSimilarity`
(inclusive), sorts descending and truncates to `limit`; every failure
branch returns the empty list. -/

namespace Firestore

/-- A document of the `vectorizedContacts` collection, as the search
reads it. -/
structure VectorizedContact where
  jid : String
  embeddingVector : List ℝ

/-- The `SimilarContactResult` rows built by `findSimilarContacts`. -/
structure SimilarContactResult where
  contact : VectorizedContact
  similarity : ℝ
  distance : ℝ

/-- The `ContactSearchParams` of `findSimilarContacts`, with the
defaults used by the destructuring (`limit = 10`, `minSimilarity = 0.3`,
`excludeJids = []`). -/
structure ContactSearchParams where
  query : Option String := none
  queryVector : Option (List ℝ) := none
  limit : Nat := 10
  minSimilarity : ℝ
  excludeJids : List String := []

open Classical in
/-- The `for (const doc of snapshot.docs)` loop of `findSimilarContacts`:
excluded JIDs are skipped, a similarity error is caught and the candidate
skipped, and scores at or above the threshold are kept with
`distance = 1 - similarity`. -/
noncomputable def scoreCandidates (searchVector : List ℝ) (minSimilarity : ℝ)
    (excludeJids : List String) : List VectorizedContact → List SimilarContactResult
  | [] => []
  | c :: rest =>
    if excludeJids.contains c.jid then
      scoreCandidates searchVector minSimilarity excludeJids rest
    else
      match calculateCosineSimilarity searchVector c.embeddingVector with
      | .error _ => scoreCandidates searchVector minSimilarity excludeJids rest
      | .ok s =>
        if minSimilarity ≤ s then
          ⟨c, s, 1 - s⟩ :: scoreCandidates searchVector minSimilarity excludeJids rest
        else scoreCandidates searchVector minSimilarity excludeJids rest

open Classical in
/-- `findSimilarContacts` of `src/database/firestore.ts`: resolve the
search vector (explicit `queryVector`, else a vector generated from the
text `query`, else fail), score all candidates, sort by descending
similarity (`.sort((a, b) => b.similarity - a.similarity)`) and truncate
to `limit`.  A missing store, missing query, or failed vector generation
gives `[]`. -/
noncomputable def findSimilarContacts (generateQueryVector : String → Option (List ℝ))
    (db : Option (List VectorizedContact)) (params : ContactSearchParams) :
    List SimilarContactResult :=
  match db with
  | none => []
  | some docs =>
    match params.queryVector, params.query with
    | some v, _ =>
      ((scoreCandidates v params.minSimilarity params.excludeJids docs).mergeSort
        (fun a b => decide (b.similarity ≤ a.similarity))).take params.limit
    | none, some qt =>
      match generateQueryVector qt with
      | some v =>
        ((scoreCandidates v params.minSimilarity params.excludeJids docs).mergeSort
          (fun a b => decide (b.similarity ≤ a.similarity))).take params.limit
      | none => []
    | none, none => []

theorem scoreCandidates_skip_bad (v : List ℝ) (θ : ℝ) (excl : List String)
    (pre : List VectorizedContact) (bad : VectorizedContact)
    (post : List VectorizedContact) (hbad : bad.embeddingVector.length ≠ v.length) :
    scoreCandidates v θ excl (pre ++ bad :: post) = scoreCandidates v θ excl (pre ++ post) := by
  induction pre with
  | nil =>
    simp only [List.nil_append, scoreCandidates,
      calculateCosineSimilarity_eq_error v bad.embeddingVector (fun h => hbad h.symm)]
    rcases hcon : excl.contains bad.jid with _ | _ <;> simp [hcon]
  | cons a pre ih =>
    simp only [List.cons_append, scoreCandidates, List.append_eq]
    rw [ih]

theorem mem_scoreCandidates_iff (v : List ℝ) (θ : ℝ) (excl : List String)
    (docs : List VectorizedContact) (r : SimilarContactResult) :
    r ∈ scoreCandidates v θ excl docs ↔
      ∃ c, c ∈ docs ∧ excl.contains c.jid = false ∧
        c.embeddingVector.length = v.length ∧
        θ ≤ specCosine v c.embeddingVector ∧
        r = ⟨c, specCosine v c.embeddingVector, 1 - specCosine v c.embeddingVector⟩ := by
  induction docs with
  | nil => simp [scoreCandidates]
  | cons c rest ih =>
    rcases hcon : excl.contains c.jid with _ | _
    · rcases hlen : decide (c.embeddingVector.length = v.length) with _ | _
      · have hlen' : c.embeddingVector.length ≠ v.length := by simpa using hlen
        simp only [scoreCandidates, hcon, Bool.false_eq_true, if_false,
          calculateCosineSimilarity_eq_error v c.embeddingVector (fun h => hlen' h.symm)]
        rw [ih]
        constructor
        · rintro ⟨c', hc', hx, hl, hs, rfl⟩
          exact ⟨c', List.mem_cons_of_mem c hc', hx, hl, hs, rfl⟩
        · rintro ⟨c', hc', hx, hl, hs, rfl⟩
          rcases List.mem_cons.mp hc' with rfl | hc''
          · exact absurd hl hlen'
          · exact ⟨c', hc'', hx, hl, hs, rfl⟩
      · have hlen' : c.embeddingVector.length = v.length := by simpa using hlen
        simp only [scoreCandidates, hcon, Bool.false_eq_true, if_false,
          calculateCosineSimilarity_eq_ok v c.embeddingVector hlen'.symm]
        by_cases hθ : θ ≤ specCosine v c.embeddingVector
        · rw [if_pos hθ]
          constructor
          · intro hr
            rcases List.mem_cons.mp hr with rfl | hr'
            · exact ⟨c, List.mem_cons_self c rest, hcon, hlen', hθ, rfl⟩
            · obtain ⟨c', hc', hx, hl, hs, hr''⟩ := ih.mp hr'
              exact ⟨c', List.mem_cons_of_mem c hc', hx, hl, hs, hr''⟩
          · rintro ⟨c', hc', hx, hl, hs, rfl⟩
            rcases List.mem_cons.mp hc' with rfl | hc''
            · exact List.mem_cons_self _ _
            · exact List.mem_cons_of_mem _ (ih.mpr ⟨c', hc'', hx, hl, hs, rfl⟩)
        · rw [if_neg hθ]
          rw [ih]
          constructor
          · rintro ⟨c', hc', hx, hl, hs, rfl⟩
            exact ⟨c', List.mem_cons_of_mem c hc', hx, hl, hs, rfl⟩
          · rintro ⟨c', hc', hx, hl, hs, rfl⟩
            rcases List.mem_cons.mp hc' with rfl | hc''
            · exact absurd hs hθ
            · exact ⟨c', hc'', hx, hl, hs, rfl⟩
    · simp only [scoreCandidates, hcon, if_true]
      rw [ih]
      constructor
      · rintro ⟨c', hc', hx, hl, hs, rfl⟩
        exact ⟨c', List.mem_cons_of_mem c hc', hx, hl, hs, rfl⟩
      · rintro ⟨c', hc', hx, hl, hs, rfl⟩
        rcases List.mem_cons.mp hc' with rfl | hc''
        · rw [hcon] at hx
          exact absurd hx (by simp)
        · exact ⟨c', hc'', hx, hl, hs, rfl⟩

theorem sorted_take_sortBySimilarity (l : List SimilarContactResult) (n : Nat) :
    List.Pairwise (fun a b => b.similarity ≤ a.similarity)
      ((l.mergeSort (fun a b => decide (b.similarity ≤ a.similarity))).take n) := by
  have hs := @List.sorted_mergeSort SimilarContactResult
    (fun a b : SimilarContactResult => decide (b.similarity ≤ a.similarity))
    (fun a b c h1 h2 => by
      simp only [decide_eq_true_eq] at h1 h2 ⊢
      exact le_trans h2 h1)
    (fun a b => by
      simp only [Bool.or_eq_true, decide_eq_true_eq]
      exact le_total b.similarity a.similarity)
    l
  have hs' := List.Pairwise.sublist (List.take_sublist n _) hs
  exact hs'.imp (fun h => by simpa using h)

end Firestore

/-! ### Claim C10: ranked similarity search -/

/-- C10: in `findSimilarContacts` a candidate whose stored embedding has
the wrong dimension is skipped (its error is caught per candidate) while
all others are still scored; kept candidates are exactly those scoring at
least the threshold (inclusive `>=`, unlike the strict `>` of
`findTopMatch`, which drops a candidate scoring exactly the threshold);
the result is sorted by descending similarity and truncated to `limit`;
and a missing store, missing query, or failed query-vector generation
yields `[]` instead of an error. -/
theorem C10_findSimilarContacts_spec (g : String → Option (List ℝ))
    (docs : List Firestore.VectorizedContact) (p : Firestore.ContactSearchParams) :
    (∀ (v : List ℝ) (pre post : List Firestore.VectorizedContact)
        (bad : Firestore.VectorizedContact),
      bad.embeddingVector.length ≠ v.length →
      Firestore.scoreCandidates v p.minSimilarity p.excludeJids (pre ++ bad :: post) =
        Firestore.scoreCandidates v p.minSimilarity p.excludeJids (pre ++ post)) ∧
    (∀ (v : List ℝ) (r : Firestore.SimilarContactResult),
      r ∈ Firestore.scoreCandidates v p.minSimilarity p.excludeJids docs ↔
        ∃ c, c ∈ docs ∧ p.excludeJids.contains c.jid = false ∧
          c.embeddingVector.length = v.length ∧
          p.minSimilarity ≤ specCosine v c.embeddingVector ∧
          r = ⟨c, specCosine v c.embeddingVector, 1 - specCosine v c.embeddingVector⟩) ∧
    (∀ (c : VectorSearch.Contact) (q e : List ℝ), c.embedding = some e →
      e.length = q.length → specCosine q e = p.minSimilarity →
      VectorSearch.findTopMatch (some [c]) q p.minSimilarity = none) ∧
    List.Pairwise (fun a b => b.similarity ≤ a.similarity)
      (Firestore.findSimilarContacts g (some docs) p) ∧
    (Firestore.findSimilarContacts g (some docs) p).length ≤ p.limit ∧
    (∀ v, p.queryVector = some v →
      ∀ r ∈ Firestore.findSimilarContacts g (some docs) p,
        r ∈ Firestore.scoreCandidates v p.minSimilarity p.excludeJids docs) ∧
    Firestore.findSimilarContacts g none p = [] ∧
    (p.queryVector = none → p.query = none →
      Firestore.findSimilarContacts g (some docs) p = []) ∧
    (∀ qt, p.queryVector = none → p.query = some qt → g qt = none →
      Firestore.findSimilarContacts g (some docs) p = []) := by
  refine ⟨?_, ?_, ?_, ?_, ?_, ?_, rfl, ?_, ?_⟩
  · intro v pre post bad hbad
    exact Firestore.scoreCandidates_skip_bad v p.minSimilarity p.excludeJids pre bad post hbad
  · intro v r
    exact Firestore.mem_scoreCandidates_iff v p.minSimilarity p.excludeJids docs r
  · intro c q e hemb hlen hspec
    have hloop := VectorSearch.findTopMatchLoop_le q [c] none p.minSimilarity
      (by
        intro c' hc' e' hemb'
        rcases List.mem_singleton.mp hc' with rfl
        rw [hemb] at hemb'
        injection hemb' with he
        rw [← he]
        exact hlen)
      (by
        intro c' hc' e' hemb'
        rcases List.mem_singleton.mp hc' with rfl
        rw [hemb] at hemb'
        injection hemb' with he
        rw [← he, hspec])
    simp only [VectorSearch.findTopMatch, List.length_cons, List.length_nil]
    rw [if_neg (by simp), hloop]
  · rcases hqv : p.queryVector with _ | v
    · rcases hq : p.query with _ | qt
      · simp [Firestore.findSimilarContacts, hqv, hq]
      · rcases hg : g qt with _ | v'
        · simp [Firestore.findSimilarContacts, hqv, hq, hg]
        · simp only [Firestore.findSimilarContacts, hqv, hq, hg]
          exact Firestore.sorted_take_sortBySimilarity _ _
    · simp only [Firestore.findSimilarContacts, hqv]
      exact Firestore.sorted_take_sortBySimilarity _ _
  · rcases hqv : p.queryVector with _ | v
    · rcases hq : p.query with _ | qt
      · simp [Firestore.findSimilarContacts, hqv, hq]
      · rcases hg : g qt with _ | v'
        · simp [Firestore.findSimilarContacts, hqv, hq, hg]
        · simp only [Firestore.findSimilarContacts, hqv, hq, hg]
          rw [List.length_take]
          exact min_le_left _ _
    · simp only [Firestore.findSimilarContacts, hqv]
      rw [List.length_take]
      exact min_le_left _ _
  · intro v hqv r hr
    simp only [Firestore.findSimilarContacts, hqv] at hr
    have hr' := List.take_subset _ _ hr
    exact List.mem_mergeSort.mp hr'
  · intro hqv hq
    simp [Firestore.findSimilarContacts, hqv, hq]
  · intro qt hqv hq hg
    simp [Firestore.findSimilarContacts, hqv, hq, hg]

/-- Witness for C10 at a concrete input: a stored one-dimensional
embedding is skipped when queried with a two-dimensional vector. -/
theorem C10_findSimilarContacts_spec_witness :
    Firestore.scoreCandidates [(1 : ℝ), 0] 0.3 []
        ([] ++ { jid := "b", embeddingVector := [1] } :: []) =
      Firestore.scoreCandidates [(1 : ℝ), 0] 0.3 [] ([] ++ []) :=
  (C10_findSimilarContacts_spec (fun _ => none) [] { minSimilarity := 0.3 }).1
    [(1 : ℝ), 0] [] [] { jid := "b", embeddingVector := [1] } (by simp)

/-! ### LinkedIn enrichment (`src/routes/contact-enrichment.ts`)

The enrichment route and `enrichLinkedInData` are embedded with every
external effect (provider fetch, Firestore, image upload) injected
through an environment of oracles; a JavaScript exception in an external
call is an `Except.error` of the corresponding oracle.  String fields
only ever tested for truthiness model `undefined`/`null` as `""`. -/

namespace Enrichment

/-- A `starts_at`/`ends_at` object of the provider response. -/
structure LinkedInDate where
  year : Int
  month : Int
deriving Repr, DecidableEq

/-- An entry of `linkedInResponse.experiences`. -/
structure LinkedInExperience where
  company : String := ""
  title : String := ""
  description : String := ""
  location : String := ""
  company_linkedin_profile_url : String := ""
  logo_url : String := ""
  starts_at : Option LinkedInDate := none
  ends_at : Option LinkedInDate := none
deriving Repr, DecidableEq

/-- An entry of `linkedInResponse.education`. -/
structure LinkedInEducation where
  school : String := ""
  field_of_study : String := ""
  grade : String := ""
  description : String := ""
  school_linkedin_profile_url : String := ""
  logo_url : String := ""
  starts_at : Option LinkedInDate := none
  ends_at : Option LinkedInDate := none
deriving Repr, DecidableEq

/-- The provider response, restricted to the fields `enrichLinkedInData`
reads.  `code` is set on the 404/400 "profile not found" answers;
`experiences`/`education` are `none` when the response carries no such
arrays (destructuring then throws inside the `try`). -/
structure LinkedInResponse where
  code : Option Int := none
  name : String := ""
  localized_first_name : String := ""
  localized_last_name : String := ""
  city : String := ""
  state : String := ""
  country : String := ""
  headline : String := ""
  occupation : String := ""
  profile_pic_url : String := ""
  experiences : Option (List LinkedInExperience) := none
  education : Option (List LinkedInEducation) := none
deriving Repr, DecidableEq

/-- The `JobHistory` entries of `src/interfaces.ts`; optional string
fields default to `""`. -/
structure JobHistory where
  id : String := ""
  organizationId : String := ""
  employmentType : String := ""
  jobTitle : String := ""
  companyName : String := ""
  description : String := ""
  companyLogo : String := ""
  companyLinkedinUrl : String := ""
  startDate : String := ""
  endDate : String := ""
  isCurrentRole : Bool := false
  location : String := ""
  jobResponsibilities : String := ""
  workEmail : String := ""
deriving Repr, DecidableEq

/-- The `EducationHistory` entries of `src/interfaces.ts`. -/
structure EducationHistory where
  id : String := ""
  organizationId : String := ""
  institutionName : String := ""
  institutionLogo : String := ""
  institutionLinkedinUrl : String := ""
  fieldOfStudy : String := ""
  startDate : String := ""
  endDate : String := ""
  grade : String := ""
  description : String := ""
  degreeOrCertificate : String := ""
  educationEmail : String := ""
deriving Repr, DecidableEq

/-- The contact `location` object. -/
structure Location where
  city : String := ""
  state : String := ""
  country : String := ""
deriving Repr, DecidableEq

/-- The contact record as the enrichment code reads it.  `location`,
`jobHistory` and `educationHistory` are `none` when the stored document
lacks the key (or holds `null`, or — for `location` — an empty object),
matching the truthiness and `Object.keys` tests applied to them. -/
structure Contact where
  id : String
  img : String := ""
  name : String := ""
  firstName : String := ""
  lastName : String := ""
  location : Option Location := none
  jobTitle : String := ""
  company : String := ""
  linkedin : String := ""
  email : String := ""
  jobHistory : Option (List JobHistory) := none
  educationHistory : Option (List EducationHistory) := none
  lastEnrichedAt : Option Int := none
  linkedinEnrichmentResponse : Option LinkedInResponse := none
deriving Repr, DecidableEq

/-- `contactData?.location?.city || ...` reads through the optional
location object. -/
def locCity (c : Contact) : String := (c.location.map Location.city).getD ""

/-- See `locCity`. -/
def locState (c : Contact) : String := (c.location.map Location.state).getD ""

/-- See `locCity`. -/
def locCountry (c : Contact) : String := (c.location.map Location.country).getD ""

/-- `String(month).padStart(2, '0')`. -/
def padMonth (m : Int) : String :=
  let s := toString m
  if 2 ≤ s.length then s else "0" ++ s

/-- The `` `${d.year}-${String(d.month).padStart(2, '0')}` `` date format,
with `""` for an absent date (`starts_at ? ... : ""`). -/
def formatLinkedInDate : Option LinkedInDate → String
  | some d => toString d.year ++ "-" ++ padMonth d.month
  | none => ""

/-- The `experiences.map` building fresh `jobHistory` entries.  The
organization-upsert transaction is absent from the source (its block is
commented out), so `orgCache` stays empty and every derived entry gets
`organizationId = ""` and an empty logo.  The `String(Date.now() +
Math.random())` id is injected as an oracle indexed by position. -/
def buildJobHistory (genId : Nat → String) (experiences : List LinkedInExperience) :
    List JobHistory :=
  experiences.enum.map fun ie =>
    { id := genId ie.1
      organizationId := ""
      employmentType := ""
      jobTitle := ie.2.title
      companyName := ie.2.company
      description := ie.2.description
      companyLogo := ""
      companyLinkedinUrl := ie.2.company_linkedin_profile_url
      startDate := formatLinkedInDate ie.2.starts_at
      endDate := formatLinkedInDate ie.2.ends_at
      isCurrentRole := ie.2.ends_at.isNone
      location := ie.2.location }

/-- The `education.map` building fresh `educationHistory` entries; see
`buildJobHistory`. -/
def buildEducationHistory (genId : Nat → String) (education : List LinkedInEducation) :
    List EducationHistory :=
  education.enum.map fun ie =>
    { id := genId ie.1
      organizationId := ""
      institutionName := ie.2.school
      institutionLogo := ""
      institutionLinkedinUrl := ie.2.school_linkedin_profile_url
      fieldOfStudy := ie.2.field_of_study
      startDate := formatLinkedInDate ie.2.starts_at
      endDate := formatLinkedInDate ie.2.ends_at
      grade := ie.2.grade
      description := ie.2.description }

/-- The `existingJobs.find(ej => ...)` predicate: an exact LinkedIn-URL
match when the existing entry has a URL, otherwise the compound key
company name + start date + job title. -/
def jobMatches (jh ej : JobHistory) : Bool :=
  (!(ej.companyLinkedinUrl == "") && ej.companyLinkedinUrl == jh.companyLinkedinUrl) ||
    (ej.companyName == jh.companyName && ej.startDate == jh.startDate &&
      ej.jobTitle == jh.jobTitle)

/-- On a match the merged entry takes the fresh entry's core fields but
keeps the existing id and the existing optional fields when non-empty
(`existingJob.employmentType || jh.employmentType`, ...). -/
def mergeJobEntry (ej jh : JobHistory) : JobHistory :=
  { jh with
    id := ej.id
    employmentType := jsOr ej.employmentType jh.employmentType
    jobResponsibilities := jsOr ej.jobResponsibilities jh.jobResponsibilities
    workEmail := jsOr ej.workEmail jh.workEmail }

/-- The job-history merge of `enrichLinkedInData`: existing entries
without a LinkedIn URL are pushed first (treated as manual entries), then
every fresh entry is pushed, merged with its match among the existing
entries when one exists. -/
def mergeJobHistory (existingJobs fresh : List JobHistory) : List JobHistory :=
  let preserved := existingJobs.foldl
    (fun acc j => if j.companyLinkedinUrl == "" then acc ++ [j] else acc) []
  fresh.foldl
    (fun acc jh =>
      acc ++ [match existingJobs.find? (fun ej => jobMatches jh ej) with
              | some ej => mergeJobEntry ej jh
              | none => jh]) preserved

/-- The `existingEducation.find(ee => ...)` predicate: URL match first,
else institution name + start date + field of study. -/
def eduMatches (eh ee : EducationHistory) : Bool :=
  (!(ee.institutionLinkedinUrl == "") && ee.institutionLinkedinUrl == eh.institutionLinkedinUrl) ||
    (ee.institutionName == eh.institutionName && ee.startDate == eh.startDate &&
      ee.fieldOfStudy == eh.fieldOfStudy)

/-- Education analogue of `mergeJobEntry`, preferring the existing
degree, grade and contact email when non-empty. -/
def mergeEduEntry (ee eh : EducationHistory) : EducationHistory :=
  { eh with
    id := ee.id
    degreeOrCertificate := jsOr ee.degreeOrCertificate eh.degreeOrCertificate
    grade := jsOr ee.grade eh.grade
    educationEmail := jsOr ee.educationEmail eh.educationEmail }

/-- Education analogue of `mergeJobHistory`. -/
def mergeEducationHistory (existingEducation fresh : List EducationHistory) :
    List EducationHistory :=
  let preserved := existingEducation.foldl
    (fun acc e => if e.institutionLinkedinUrl == "" then acc ++ [e] else acc) []
  fresh.foldl
    (fun acc eh =>
      acc ++ [match existingEducation.find? (fun ee => eduMatches eh ee) with
              | some ee => mergeEduEntry ee eh
              | none => eh]) preserved

end Enrichment

namespace Enrichment

/-- The external-effect oracles of one `enrichLinkedInData` run: each
`Except.error` models a thrown JavaScript exception in the corresponding
external call. -/
structure EnrichEnv where
  fetchResult : Except Unit LinkedInResponse
  dbInitialized : Bool := true
  imageUpload : Except Unit String := .ok ""
  orgLogo : String → Except Unit (Option String) := fun _ => .ok none
  updateOk : Bool := true
  genJobId : Nat → String := fun n => toString n
  genEduId : Nat → String := fun n => toString n
  now : Int := 0

/-- A row of the append-only `linkedinEnrichmentResponses` log written by
`saveLinkedInEnrichmentData` (which catches its own errors and never
interrupts the main flow). -/
structure EnrichmentRecord where
  contactId : String
  linkedInResponse : LinkedInResponse
  enrichedData : Option Contact := none
deriving Repr, DecidableEq

/-- Step 5A of `enrichLinkedInData`: upload the profile picture only when
the contact has no image and the response carries one; a falsy upload
result leaves the image unchanged. -/
def uploadContactImage (env : EnrichEnv) (c : Contact) (resp : LinkedInResponse) :
    Except Unit String :=
  if c.img = "" ∧ resp.profile_pic_url ≠ "" then
    match env.imageUpload with
    | .error e => .error e
    | .ok uploaded => .ok (jsOr uploaded c.img)
  else .ok c.img

/-- The logo-refresh loop over the merged job history: entries with a
truthy `organizationId` re-read the organization document and take its
logo when present.  The loop mutates the entries in place, so a thrown
organization read (`Except.error`) leaves the list in its intermediate
state: the error payload is that state — already-processed entries
refreshed, the failing entry and the rest untouched. -/
def refreshJobLogos (orgLogo : String → Except Unit (Option String)) :
    List JobHistory → Except (List JobHistory) (List JobHistory)
  | [] => .ok []
  | jh :: rest =>
    if jh.organizationId = "" then
      match refreshJobLogos orgLogo rest with
      | .error s => .error (jh :: s)
      | .ok rest' => .ok (jh :: rest')
    else
      match orgLogo jh.organizationId with
      | .error _ => .error (jh :: rest)
      | .ok none =>
        match refreshJobLogos orgLogo rest with
        | .error s => .error (jh :: s)
        | .ok rest' => .ok (jh :: rest')
      | .ok (some logo) =>
        match refreshJobLogos orgLogo rest with
        | .error s => .error ({ jh with companyLogo := logo } :: s)
        | .ok rest' => .ok ({ jh with companyLogo := logo } :: rest')

/-- Education analogue of `refreshJobLogos`, with the same in-place
intermediate state as the error payload. -/
def refreshEducationLogos (orgLogo : String → Except Unit (Option String)) :
    List EducationHistory → Except (List EducationHistory) (List EducationHistory)
  | [] => .ok []
  | eh :: rest =>
    if eh.organizationId = "" then
      match refreshEducationLogos orgLogo rest with
      | .error s => .error (eh :: s)
      | .ok rest' => .ok (eh :: rest')
    else
      match orgLogo eh.organizationId with
      | .error _ => .error (eh :: rest)
      | .ok none =>
        match refreshEducationLogos orgLogo rest with
        | .error s => .error (eh :: s)
        | .ok rest' => .ok (eh :: rest')
      | .ok (some logo) =>
        match refreshEducationLogos orgLogo rest with
        | .error s => .error ({ eh with institutionLogo := logo } :: s)
        | .ok rest' => .ok ({ eh with institutionLogo := logo } :: rest')

/-- The merge loops push the existing manual entries (those without a
LinkedIn URL) into the merged list **by reference**, so the logo-refresh
loop's in-place writes are visible through the input contact's own
history list.  `overlayPreservedJobs upd orig` rebuilds the input list
after the loops ran: its manual entries are replaced, in order, by their
current states — the front of the (partially) refreshed merged list —
while entries with a LinkedIn URL were copied, not aliased, and stay
untouched. -/
def overlayPreservedJobs : List JobHistory → List JobHistory → List JobHistory
  | _, [] => []
  | upd, j :: rest =>
    if j.companyLinkedinUrl == "" then
      match upd with
      | u :: upd' => u :: overlayPreservedJobs upd' rest
      | [] => j :: overlayPreservedJobs [] rest
    else j :: overlayPreservedJobs upd rest

/-- Education analogue of `overlayPreservedJobs`. -/
def overlayPreservedEdus : List EducationHistory → List EducationHistory → List EducationHistory
  | _, [] => []
  | upd, e :: rest =>
    if e.institutionLinkedinUrl == "" then
      match upd with
      | u :: upd' => u :: overlayPreservedEdus upd' rest
      | [] => e :: overlayPreservedEdus [] rest
    else e :: overlayPreservedEdus upd rest

/-- The enriched contact object returned by `enrichLinkedInData` (step
6): every scalar is `contactData.field || response fallback || ""`, the
merged histories replace the old ones and `lastEnrichedAt` is stamped
with the current time.  The returned object never sets `company` (only
the separate Firestore update payload does). -/
def enrichedContactDataOf (c : Contact) (resp : LinkedInResponse)
    (jobs : List JobHistory) (edus : List EducationHistory) (now : Int) : Contact :=
  { c with
    img := jsOr c.img ""
    name := jsOr c.name (jsOr resp.name "")
    firstName := jsOr c.firstName (jsOr resp.localized_first_name "")
    lastName := jsOr c.lastName (jsOr resp.localized_last_name "")
    location := some
      { city := jsOr (locCity c) (jsOr resp.city "")
        country := jsOr (locCountry c) (jsOr resp.country "")
        state := jsOr (locState c) (jsOr resp.state "") }
    jobTitle := jsOr c.jobTitle (jsOr resp.headline (jsOr resp.occupation ""))
    linkedinEnrichmentResponse := some resp
    jobHistory := some jobs
    educationHistory := some edus
    lastEnrichedAt := some now
    linkedin := jsOr c.linkedin "" }

/-- The body of the `try` block of `enrichLinkedInData`, sequencing the
provider fetch, the raw-response log write, the 404/400 check, the
history building and merging, the logo refresh, the enriched log write
and the final contact update.  `Except.error (mc, log)` is a thrown
exception with the log rows already written and `mc` the input contact
object as it stands at that point: exceptions thrown after the
logo-refresh loops started see the input's aliased manual history
entries already mutated in place. -/
def enrichInner (env : EnrichEnv) (contactData : Contact) :
    Except (Contact × List EnrichmentRecord) (Contact × List EnrichmentRecord) :=
  match env.fetchResult with
  | .error _ => .error (contactData, [])
  | .ok resp =>
    let log1 : List EnrichmentRecord :=
      [{ contactId := contactData.id, linkedInResponse := resp }]
    if resp.code = some 404 ∨ resp.code = some 400 then .ok (contactData, log1)
    else
      match resp.experiences, resp.education with
      | some exps, some edus =>
        let jobHistory := buildJobHistory env.genJobId exps
        let educationHistory := buildEducationHistory env.genEduId edus
        if env.dbInitialized = false then .error (contactData, log1)
        else
          match uploadContactImage env contactData resp with
          | .error _ => .error (contactData, log1)
          | .ok _finalContactImg =>
            let updatedJobHistory :=
              mergeJobHistory (contactData.jobHistory.getD []) jobHistory
            let updatedEducationHistory :=
              mergeEducationHistory (contactData.educationHistory.getD []) educationHistory
            match refreshJobLogos env.orgLogo updatedJobHistory with
            | .error sJ =>
              .error ({ contactData with
                  jobHistory := contactData.jobHistory.map (overlayPreservedJobs sJ) }, log1)
            | .ok jobs' =>
              match refreshEducationLogos env.orgLogo updatedEducationHistory with
              | .error sE =>
                .error ({ contactData with
                    jobHistory := contactData.jobHistory.map (overlayPreservedJobs jobs'),
                    educationHistory :=
                      contactData.educationHistory.map (overlayPreservedEdus sE) }, log1)
              | .ok edus' =>
                let enriched := enrichedContactDataOf contactData resp jobs' edus' env.now
                let log2 := log1 ++
                  [{ contactId := contactData.id, linkedInResponse := resp,
                     enrichedData := some enriched }]
                if env.updateOk then .ok (enriched, log2)
                else
                  .error ({ contactData with
                      jobHistory := contactData.jobHistory.map (overlayPreservedJobs jobs'),
                      educationHistory :=
                        contactData.educationHistory.map (overlayPreservedEdus edus') }, log2)
      | _, _ => .error (contactData, log1)

/-- `enrichLinkedInData`: the top-level `catch` returns the input contact
object — in the state the logo-refresh loops left it in — together with
the log rows already written. -/
def enrichLinkedInData (env : EnrichEnv) (contactData : Contact) :
    Contact × List EnrichmentRecord :=
  match enrichInner env contactData with
  | .ok res => res
  | .error res => res

/-- `e'` is `e` with at most its `companyLogo` overwritten. -/
def jobLogoOnly (e e' : JobHistory) : Prop :=
  { e' with companyLogo := e.companyLogo } = e

/-- `e'` is `e` with at most its `institutionLogo` overwritten. -/
def eduLogoOnly (e e' : EducationHistory) : Prop :=
  { e' with institutionLogo := e.institutionLogo } = e

/-- `mc` is the contact object `c` as the logo-refresh loops may have
left it: every field other than the history lists is unchanged, the
history lists keep their length and order, entries with a LinkedIn URL
are unchanged, and manual entries changed at most in their logo field. -/
def logoFramed (c mc : Contact) : Prop :=
  mc = { c with jobHistory := mc.jobHistory, educationHistory := mc.educationHistory } ∧
  (match c.jobHistory, mc.jobHistory with
   | none, none => True
   | some l, some l' =>
     List.Forall₂ (fun e e' => jobLogoOnly e e' ∧
       ((e.companyLinkedinUrl == "") = false → e' = e)) l l'
   | _, _ => False) ∧
  (match c.educationHistory, mc.educationHistory with
   | none, none => True
   | some l, some l' =>
     List.Forall₂ (fun e e' => eduLogoOnly e e' ∧
       ((e.institutionLinkedinUrl == "") = false → e' = e)) l l'
   | _, _ => False)

end Enrichment

/-! ### The cache-hit merge of `POST /api/contacts/enrich`

When a fresh-enough `linkedinEnrichmentResponses` row exists, the route
copies its `enrichedData` entries onto the contact, but only for keys
whose current value is `undefined`, `null`, a blank string, or an empty
(non-array) object. -/

/-- A dynamically-typed JavaScript value, as the `Object.entries` copy
loop sees it. -/
inductive JSVal where
  | undef
  | jnull
  | str (s : String)
  | num (q : ℚ)
  | boolean (b : Bool)
  | arr (elems : List JSVal)
  | obj (fields : List (String × JSVal))

namespace Enrichment

/-- The guard of the copy loop: `currentVal === undefined || currentVal
=== null || isEmptyString`, where `isEmptyString` also covers non-array
objects without keys. -/
def shouldAdoptOver : JSVal → Bool
  | .undef => true
  | .jnull => true
  | .str s => jsTrim s == ""
  | .obj fields => fields.isEmpty
  | _ => false

/-- The `Object.entries(existingData.enrichedData).forEach` loop: the
contact object is threaded through as it is mutated, each entry
overwriting its key only when the current value is empty in the sense of
`shouldAdoptOver`. -/
def cacheHitMerge (contact : String → JSVal) : List (String × JSVal) → (String → JSVal)
  | [] => contact
  | kv :: rest =>
    cacheHitMerge
      (fun k =>
        if k = kv.1 then (if shouldAdoptOver (contact k) then kv.2 else contact k)
        else contact k)
      rest

/-- The `currentVal.trim() === ''` adoption test on one string key of the
typed contact record. -/
def adoptIfBlank (currentVal newVal : String) : String :=
  if jsTrim currentVal = "" then newVal else currentVal

/-- The copy loop of the cache hit, specialized key by key to the typed
`Contact` record: string keys are adopted when blank, and the optional
keys (absent / `null` / empty object) when `none`. -/
def cacheMergeContact (c cached : Contact) : Contact :=
  { id := adoptIfBlank c.id cached.id
    img := adoptIfBlank c.img cached.img
    name := adoptIfBlank c.name cached.name
    firstName := adoptIfBlank c.firstName cached.firstName
    lastName := adoptIfBlank c.lastName cached.lastName
    location := match c.location with
      | none => cached.location
      | some l => some l
    jobTitle := adoptIfBlank c.jobTitle cached.jobTitle
    company := adoptIfBlank c.company cached.company
    linkedin := adoptIfBlank c.linkedin cached.linkedin
    email := adoptIfBlank c.email cached.email
    jobHistory := match c.jobHistory with
      | none => cached.jobHistory
      | some js => some js
    educationHistory := match c.educationHistory with
      | none => cached.educationHistory
      | some es => some es
    lastEnrichedAt := match c.lastEnrichedAt with
      | none => cached.lastEnrichedAt
      | some t => some t
    linkedinEnrichmentResponse := match c.linkedinEnrichmentResponse with
      | none => cached.linkedinEnrichmentResponse
      | some r => some r }

/-- A row of `linkedinEnrichmentResponses` as the route's cache query
sees it: creation time, whether a raw response was stored, and the
enriched snapshot. -/
structure CachedEnrichment where
  created : Int
  hasResponse : Bool := true
  enrichedData : Option Contact := none

/-- Environment of one `POST /api/contacts/enrich` request. -/
structure EnrichRequestEnv where
  now : Int
  dbInitialized : Bool := true
  cachedResponse : Option CachedEnrichment := none
  cacheUpdateOk : Bool := true
  enrichEnv : EnrichEnv

/-- Outcome of one request: the contact of the response (`none` for the
400/500 error responses) and whether the external provider was called. -/
structure EnrichRequestResult where
  contact : Option Contact
  fetchedExternally : Bool
deriving Repr, DecidableEq

/-- `Math.ceil(diffTime / (1000 * 60 * 60 * 24))` on a millisecond
difference. -/
def ceilDiffDays (diffMs : Nat) : Nat := (diffMs + 86400000 - 1) / 86400000

/-- The cache-lookup block of the route: merge from a fresh-enough
cached response carrying both a raw response and an enriched snapshot,
and otherwise fall through to `enrichLinkedInData` (which performs the
external fetch). -/
def cacheDecision (env : EnrichRequestEnv) (contactData : Contact) : EnrichRequestResult :=
  match env.cachedResponse with
  | some entry =>
    match entry.enrichedData with
    | some cached =>
      if ceilDiffDays (env.now - entry.created).natAbs < 30 ∧ entry.hasResponse = true then
        if env.cacheUpdateOk then
          { contact := some { cacheMergeContact contactData cached with
              lastEnrichedAt := some env.now },
            fetchedExternally := false }
        else { contact := none, fetchedExternally := false }
      else
        { contact := some (enrichLinkedInData env.enrichEnv contactData).1,
          fetchedExternally := true }
    | none =>
      { contact := some (enrichLinkedInData env.enrichEnv contactData).1,
        fetchedExternally := true }
  | none =>
    { contact := some (enrichLinkedInData env.enrichEnv contactData).1,
      fetchedExternally := true }

/-- The `POST /api/contacts/enrich` handler: reject contacts without a
LinkedIn URL; skip entirely when `lastEnrichedAt` is set and
`Math.ceil` of the elapsed days is below 30; otherwise run the
cache-or-fetch decision of `cacheDecision`. -/
def enrichContactHandler (env : EnrichRequestEnv) (contactData : Contact) :
    EnrichRequestResult :=
  if contactData.linkedin = "" then { contact := none, fetchedExternally := false }
  else
    let needsEnrichment :=
      match contactData.lastEnrichedAt with
      | none => true
      | some t => !decide (ceilDiffDays (env.now - t).natAbs < 30)
    if needsEnrichment then
      if env.dbInitialized = false then { contact := none, fetchedExternally := false }
      else cacheDecision env contactData
    else { contact := some contactData, fetchedExternally := false }

end Enrichment

theorem cacheHitMerge_preserves (entries : List (String × JSVal)) :
    ∀ (contact : String → JSVal) (k : String),
      Enrichment.shouldAdoptOver (contact k) = false →
      Enrichment.cacheHitMerge contact entries k = contact k := by
  induction entries with
  | nil => intro contact k _; rfl
  | cons kv rest ih =>
    intro contact k h
    rw [Enrichment.cacheHitMerge]
    have hPk : (if k = kv.1 then
        (if Enrichment.shouldAdoptOver (contact k) then kv.2 else contact k)
        else contact k) = contact k := by
      by_cases hk : k = kv.1
      · simp only [if_pos hk, h, Bool.false_eq_true, if_false]
      · simp only [if_neg hk]
    rw [ih _ k (by rw [hPk]; exact h)]
    exact hPk

theorem cacheHitMerge_adopts_only (entries : List (String × JSVal))
    (contact : String → JSVal) (k : String)
    (h : Enrichment.cacheHitMerge contact entries k ≠ contact k) :
    Enrichment.shouldAdoptOver (contact k) = true := by
  by_contra hna
  exact h (cacheHitMerge_preserves entries contact k (by simpa using hna))

/-! ### Claim C1: the enrichment merge never overwrites existing values -/

/-- C1: in the enriched contact returned by `enrichLinkedInData`, every
scalar profile field that is non-empty on the input keeps its input value
(and `company` is never touched at all), so provider values are adopted
only for empty fields; and in the cache-hit merge of the route, a key
whose current value is not empty/null/undefined/blank/empty-object is
never overwritten — a changed key implies the current value was empty. -/
theorem C1_enrichment_merge_preserves_existing
    (c : Enrichment.Contact) (resp : Enrichment.LinkedInResponse)
    (jobs : List Enrichment.JobHistory) (edus : List Enrichment.EducationHistory)
    (now : Int) (contact : String → JSVal) (entries : List (String × JSVal)) (k : String) :
    (c.name ≠ "" → (Enrichment.enrichedContactDataOf c resp jobs edus now).name = c.name) ∧
    (c.firstName ≠ "" →
      (Enrichment.enrichedContactDataOf c resp jobs edus now).firstName = c.firstName) ∧
    (c.lastName ≠ "" →
      (Enrichment.enrichedContactDataOf c resp jobs edus now).lastName = c.lastName) ∧
    (Enrichment.locCity c ≠ "" →
      Enrichment.locCity (Enrichment.enrichedContactDataOf c resp jobs edus now) =
        Enrichment.locCity c) ∧
    (Enrichment.locState c ≠ "" →
      Enrichment.locState (Enrichment.enrichedContactDataOf c resp jobs edus now) =
        Enrichment.locState c) ∧
    (Enrichment.locCountry c ≠ "" →
      Enrichment.locCountry (Enrichment.enrichedContactDataOf c resp jobs edus now) =
        Enrichment.locCountry c) ∧
    (c.jobTitle ≠ "" →
      (Enrichment.enrichedContactDataOf c resp jobs edus now).jobTitle = c.jobTitle) ∧
    (Enrichment.enrichedContactDataOf c resp jobs edus now).company = c.company ∧
    (c.linkedin ≠ "" →
      (Enrichment.enrichedContactDataOf c resp jobs edus now).linkedin = c.linkedin) ∧
    (c.jobTitle = "" →
      (Enrichment.enrichedContactDataOf c resp jobs edus now).jobTitle =
        jsOr resp.headline (jsOr resp.occupation "")) ∧
    ((Enrichment.enrichedContactDataOf c resp jobs edus now).jobTitle ≠ c.jobTitle →
      c.jobTitle = "") ∧
    ((Enrichment.enrichedContactDataOf c resp jobs edus now).name ≠ c.name → c.name = "") ∧
    (Enrichment.shouldAdoptOver (contact k) = false →
      Enrichment.cacheHitMerge contact entries k = contact k) ∧
    (Enrichment.cacheHitMerge contact entries k ≠ contact k →
      Enrichment.shouldAdoptOver (contact k) = true) := by
  refine ⟨?_, ?_, ?_, ?_, ?_, ?_, ?_, ?_, ?_, ?_, ?_, ?_,
    cacheHitMerge_preserves entries contact k,
    cacheHitMerge_adopts_only entries contact k⟩
  · intro h
    simp [Enrichment.enrichedContactDataOf, jsOr, h]
  · intro h
    simp [Enrichment.enrichedContactDataOf, jsOr, h]
  · intro h
    simp [Enrichment.enrichedContactDataOf, jsOr, h]
  · intro h
    simp only [Enrichment.locCity] at h
    simp [Enrichment.enrichedContactDataOf, Enrichment.locCity, jsOr, h]
  · intro h
    simp only [Enrichment.locState] at h
    simp [Enrichment.enrichedContactDataOf, Enrichment.locState, jsOr, h]
  · intro h
    simp only [Enrichment.locCountry] at h
    simp [Enrichment.enrichedContactDataOf, Enrichment.locCountry, jsOr, h]
  · intro h
    simp [Enrichment.enrichedContactDataOf, jsOr, h]
  · simp [Enrichment.enrichedContactDataOf]
  · intro h
    simp [Enrichment.enrichedContactDataOf, jsOr, h]
  · intro h
    simp [Enrichment.enrichedContactDataOf, jsOr, h]
  · intro h
    by_contra hne
    exact h (by simp [Enrichment.enrichedContactDataOf, jsOr, hne])
  · intro h
    by_contra hne
    exact h (by simp [Enrichment.enrichedContactDataOf, jsOr, hne])

/-- Witness for C1: the claim's own example — input job title
`"Engineer"`, provider headline `"VP"`, merged result `"Engineer"`. -/
theorem C1_enrichment_merge_preserves_existing_witness :
    (Enrichment.enrichedContactDataOf { id := "c1", jobTitle := "Engineer" }
      { headline := "VP" } [] [] 0).jobTitle = "Engineer" :=
  (C1_enrichment_merge_preserves_existing { id := "c1", jobTitle := "Engineer" }
    { headline := "VP" } [] [] 0 (fun _ => JSVal.undef) [] "k").2.2.2.2.2.2.1
    (by decide)

theorem foldl_push_filter {α : Type} (p : α → Bool) :
    ∀ (l acc : List α),
      l.foldl (fun acc x => if p x then acc ++ [x] else acc) acc = acc ++ l.filter p := by
  intro l
  induction l with
  | nil => intro acc; simp
  | cons x xs ih =>
    intro acc
    rcases hp : p x with _ | _
    · simp [List.foldl_cons, hp, ih]
    · simp [List.foldl_cons, hp, ih]

theorem foldl_push_map {α β : Type} (f : α → β) :
    ∀ (l : List α) (acc : List β),
      l.foldl (fun acc x => acc ++ [f x]) acc = acc ++ l.map f := by
  intro l
  induction l with
  | nil => intro acc; simp
  | cons x xs ih =>
    intro acc
    simp [List.foldl_cons, ih]

namespace Enrichment

/-- The push loops of the job-history merge are the manual-entry filter
followed by the per-fresh-entry merge map. -/
theorem mergeJobHistory_eq (existingJobs fresh : List JobHistory) :
    mergeJobHistory existingJobs fresh =
      existingJobs.filter (fun j => j.companyLinkedinUrl == "") ++
        fresh.map (fun jh =>
          match existingJobs.find? (fun ej => jobMatches jh ej) with
          | some ej => mergeJobEntry ej jh
          | none => jh) := by
  unfold mergeJobHistory
  rw [foldl_push_filter, foldl_push_map]
  simp

/-- Education analogue of `mergeJobHistory_eq`. -/
theorem mergeEducationHistory_eq (existingEducation fresh : List EducationHistory) :
    mergeEducationHistory existingEducation fresh =
      existingEducation.filter (fun e => e.institutionLinkedinUrl == "") ++
        fresh.map (fun eh =>
          match existingEducation.find? (fun ee => eduMatches eh ee) with
          | some ee => mergeEduEntry ee eh
          | none => eh) := by
  unfold mergeEducationHistory
  rw [foldl_push_filter, foldl_push_map]
  simp

end Enrichment

/-! ### Claim C8: the history-list merge policy -/

/-- C8: in the history merges of `enrichLinkedInData`, (1) existing
entries without a LinkedIn URL are preserved verbatim, (2) each fresh
entry is matched by exact URL equality or else by the compound key
name + start date + title/field-of-study, (3) a match keeps the existing
entry's id and non-empty optional fields while adopting the fresh entry's
core fields, and (4) unmatched fresh entries are appended as new. -/
theorem C8_history_merge_policy
    (existingJobs fresh : List Enrichment.JobHistory)
    (existingEducation freshEdu : List Enrichment.EducationHistory) :
    (∀ j ∈ existingJobs, j.companyLinkedinUrl = "" →
      j ∈ Enrichment.mergeJobHistory existingJobs fresh) ∧
    (Enrichment.mergeJobHistory existingJobs fresh =
      existingJobs.filter (fun j => j.companyLinkedinUrl == "") ++
        fresh.map (fun jh =>
          match existingJobs.find? (fun ej => Enrichment.jobMatches jh ej) with
          | some ej => Enrichment.mergeJobEntry ej jh
          | none => jh)) ∧
    (∀ jh ej : Enrichment.JobHistory,
      (Enrichment.mergeJobEntry ej jh).id = ej.id ∧
      (Enrichment.mergeJobEntry ej jh).companyName = jh.companyName ∧
      (Enrichment.mergeJobEntry ej jh).jobTitle = jh.jobTitle ∧
      (Enrichment.mergeJobEntry ej jh).startDate = jh.startDate ∧
      (Enrichment.mergeJobEntry ej jh).endDate = jh.endDate ∧
      (Enrichment.mergeJobEntry ej jh).description = jh.description ∧
      (Enrichment.mergeJobEntry ej jh).location = jh.location ∧
      (Enrichment.mergeJobEntry ej jh).companyLinkedinUrl = jh.companyLinkedinUrl ∧
      (ej.employmentType ≠ "" →
        (Enrichment.mergeJobEntry ej jh).employmentType = ej.employmentType) ∧
      (ej.employmentType = "" →
        (Enrichment.mergeJobEntry ej jh).employmentType = jh.employmentType) ∧
      (ej.jobResponsibilities ≠ "" →
        (Enrichment.mergeJobEntry ej jh).jobResponsibilities = ej.jobResponsibilities) ∧
      (ej.workEmail ≠ "" → (Enrichment.mergeJobEntry ej jh).workEmail = ej.workEmail)) ∧
    (∀ jh ∈ fresh, existingJobs.find? (fun ej => Enrichment.jobMatches jh ej) = none →
      jh ∈ Enrichment.mergeJobHistory existingJobs fresh) ∧
    (∀ jh ∈ fresh, ∀ ej, existingJobs.find? (fun e => Enrichment.jobMatches jh e) = some ej →
      Enrichment.mergeJobEntry ej jh ∈ Enrichment.mergeJobHistory existingJobs fresh) ∧
    (∀ jh ej : Enrichment.JobHistory, Enrichment.jobMatches jh ej = true ↔
      ((ej.companyLinkedinUrl ≠ "" ∧ ej.companyLinkedinUrl = jh.companyLinkedinUrl) ∨
        (ej.companyName = jh.companyName ∧ ej.startDate = jh.startDate ∧
          ej.jobTitle = jh.jobTitle))) ∧
    (∀ e ∈ existingEducation, e.institutionLinkedinUrl = "" →
      e ∈ Enrichment.mergeEducationHistory existingEducation freshEdu) ∧
    (Enrichment.mergeEducationHistory existingEducation freshEdu =
      existingEducation.filter (fun e => e.institutionLinkedinUrl == "") ++
        freshEdu.map (fun eh =>
          match existingEducation.find? (fun ee => Enrichment.eduMatches eh ee) with
          | some ee => Enrichment.mergeEduEntry ee eh
          | none => eh)) ∧
    (∀ eh ee : Enrichment.EducationHistory,
      (Enrichment.mergeEduEntry ee eh).id = ee.id ∧
      (Enrichment.mergeEduEntry ee eh).institutionName = eh.institutionName ∧
      (Enrichment.mergeEduEntry ee eh).fieldOfStudy = eh.fieldOfStudy ∧
      (Enrichment.mergeEduEntry ee eh).startDate = eh.startDate ∧
      (Enrichment.mergeEduEntry ee eh).endDate = eh.endDate ∧
      (ee.degreeOrCertificate ≠ "" →
        (Enrichment.mergeEduEntry ee eh).degreeOrCertificate = ee.degreeOrCertificate) ∧
      (ee.grade ≠ "" → (Enrichment.mergeEduEntry ee eh).grade = ee.grade) ∧
      (ee.educationEmail ≠ "" →
        (Enrichment.mergeEduEntry ee eh).educationEmail = ee.educationEmail)) ∧
    (∀ eh ∈ freshEdu, existingEducation.find? (fun ee => Enrichment.eduMatches eh ee) = none →
      eh ∈ Enrichment.mergeEducationHistory existingEducation freshEdu) ∧
    (∀ eh ee : Enrichment.EducationHistory, Enrichment.eduMatches eh ee = true ↔
      ((ee.institutionLinkedinUrl ≠ "" ∧ ee.institutionLinkedinUrl = eh.institutionLinkedinUrl) ∨
        (ee.institutionName = eh.institutionName ∧ ee.startDate = eh.startDate ∧
          ee.fieldOfStudy = eh.fieldOfStudy))) := by
  refine ⟨?_, Enrichment.mergeJobHistory_eq existingJobs fresh, ?_, ?_, ?_, ?_, ?_,
    Enrichment.mergeEducationHistory_eq existingEducation freshEdu, ?_, ?_, ?_⟩
  · intro j hj hurl
    rw [Enrichment.mergeJobHistory_eq]
    exact List.mem_append_left _ (List.mem_filter.mpr ⟨hj, by simp [hurl]⟩)
  · intro jh ej
    refine ⟨rfl, rfl, rfl, rfl, rfl, rfl, rfl, rfl, ?_, ?_, ?_, ?_⟩ <;>
      intro h <;> simp [Enrichment.mergeJobEntry, jsOr, h]
  · intro jh hjh hfind
    rw [Enrichment.mergeJobHistory_eq]
    refine List.mem_append_right _ (List.mem_map.mpr ⟨jh, hjh, ?_⟩)
    rw [hfind]
  · intro jh hjh ej hfind
    rw [Enrichment.mergeJobHistory_eq]
    refine List.mem_append_right _ (List.mem_map.mpr ⟨jh, hjh, ?_⟩)
    rw [hfind]
  · intro jh ej
    rw [Enrichment.jobMatches]
    simp only [Bool.or_eq_true, Bool.and_eq_true, Bool.not_eq_true', beq_eq_false_iff_ne,
      ne_eq, beq_iff_eq]
    constructor
    · rintro (⟨h1, h2⟩ | ⟨⟨h1, h2⟩, h3⟩)
      · exact Or.inl ⟨h1, h2⟩
      · exact Or.inr ⟨h1, h2, h3⟩
    · rintro (⟨h1, h2⟩ | ⟨h1, h2, h3⟩)
      · exact Or.inl ⟨h1, h2⟩
      · exact Or.inr ⟨⟨h1, h2⟩, h3⟩
  · intro e he hurl
    rw [Enrichment.mergeEducationHistory_eq]
    exact List.mem_append_left _ (List.mem_filter.mpr ⟨he, by simp [hurl]⟩)
  · intro eh ee
    refine ⟨rfl, rfl, rfl, rfl, rfl, ?_, ?_, ?_⟩ <;>
      intro h <;> simp [Enrichment.mergeEduEntry, jsOr, h]
  · intro eh heh hfind
    rw [Enrichment.mergeEducationHistory_eq]
    refine List.mem_append_right _ (List.mem_map.mpr ⟨eh, heh, ?_⟩)
    rw [hfind]
  · intro eh ee
    rw [Enrichment.eduMatches]
    simp only [Bool.or_eq_true, Bool.and_eq_true, Bool.not_eq_true', beq_eq_false_iff_ne,
      ne_eq, beq_iff_eq]
    constructor
    · rintro (⟨h1, h2⟩ | ⟨⟨h1, h2⟩, h3⟩)
      · exact Or.inl ⟨h1, h2⟩
      · exact Or.inr ⟨h1, h2, h3⟩
    · rintro (⟨h1, h2⟩ | ⟨h1, h2, h3⟩)
      · exact Or.inl ⟨h1, h2⟩
      · exact Or.inr ⟨⟨h1, h2⟩, h3⟩

/-- Witness for C8 at a concrete pair of lists: a manually entered job
(no URL) matching a fresh entry by the compound key is merged with the
existing employment type kept. -/
theorem C8_history_merge_policy_witness :
    Enrichment.mergeJobEntry
        { id := "e1", companyName := "Acme", startDate := "2020-01", jobTitle := "Dev",
          employmentType := "Full-time" }
        { id := "f1", companyName := "Acme", startDate := "2020-01", jobTitle := "Dev",
          description := "from provider" } ∈
      Enrichment.mergeJobHistory
        [{ id := "e1", companyName := "Acme", startDate := "2020-01", jobTitle := "Dev",
           employmentType := "Full-time" }]
        [{ id := "f1", companyName := "Acme", startDate := "2020-01", jobTitle := "Dev",
           description := "from provider" }] :=
  (C8_history_merge_policy
      [{ id := "e1", companyName := "Acme", startDate := "2020-01", jobTitle := "Dev",
         employmentType := "Full-time" }]
      [{ id := "f1", companyName := "Acme", startDate := "2020-01", jobTitle := "Dev",
         description := "from provider" }] [] []).2.2.2.2.1
    { id := "f1", companyName := "Acme", startDate := "2020-01", jobTitle := "Dev",
      description := "from provider" } (by decide)
    { id := "e1", companyName := "Acme", startDate := "2020-01", jobTitle := "Dev",
      employmentType := "Full-time" } (by decide)

theorem enrichInner_ok (env : Enrichment.EnrichEnv) (c : Enrichment.Contact)
    (res : Enrichment.Contact × List Enrichment.EnrichmentRecord)
    (hres : Enrichment.enrichInner env c = .ok res) :
    res.1 = c ∨ ∃ resp jobs edus, env.fetchResult = .ok resp ∧
      res.1 = Enrichment.enrichedContactDataOf c resp jobs edus env.now := by
  simp only [Enrichment.enrichInner] at hres
  split at hres
  · exact absurd hres (by simp)
  · rename_i resp heq
    split at hres
    · left
      injection hres with h
      rw [← h]
    · split at hres
      · rename_i exps edus hexp hedu
        split at hres
        · exact absurd hres (by simp)
        · split at hres
          · exact absurd hres (by simp)
          · split at hres
            · exact absurd hres (by simp)
            · rename_i jobs2 hjobs
              split at hres
              · exact absurd hres (by simp)
              · rename_i edus2 hedus
                split at hres
                · right
                  injection hres with h
                  exact ⟨resp, jobs2, edus2, heq, by rw [← h]⟩
                · exact absurd hres (by simp)
      · exact absurd hres (by simp)

/-! ### Claim C2 (corrected): the enrichment error contract

The operation never throws, but the catch does not always return the
input *unmodified*: the merge loops push existing manual history entries
into the merged lists by reference, the logo-refresh loops then mutate
those entries in place, and a later exception (an organization read or
the final contact update) reaches the catch with the input contact
already carrying refreshed `companyLogo`/`institutionLogo` values. -/

/-- The list state a logo-refresh loop leaves behind: its result on
success, the intermediate in-place state at the throw on error. -/
def stateOf {α : Type} : Except α α → α
  | .error s => s
  | .ok s => s

theorem jobLogoOnly_self (e : Enrichment.JobHistory) : Enrichment.jobLogoOnly e e := rfl

theorem eduLogoOnly_self (e : Enrichment.EducationHistory) : Enrichment.eduLogoOnly e e := rfl

theorem forall₂_jobLogoOnly_refl (l : List Enrichment.JobHistory) :
    List.Forall₂ Enrichment.jobLogoOnly l l :=
  List.forall₂_same.mpr (fun x _ => jobLogoOnly_self x)

theorem forall₂_eduLogoOnly_refl (l : List Enrichment.EducationHistory) :
    List.Forall₂ Enrichment.eduLogoOnly l l :=
  List.forall₂_same.mpr (fun x _ => eduLogoOnly_self x)

theorem refreshJobLogos_frame (f : String → Except Unit (Option String))
    (l : List Enrichment.JobHistory) :
    List.Forall₂ Enrichment.jobLogoOnly l (stateOf (Enrichment.refreshJobLogos f l)) := by
  induction l with
  | nil => exact List.Forall₂.nil
  | cons jh rest ih =>
    rw [Enrichment.refreshJobLogos]
    by_cases hc : jh.organizationId = ""
    · rw [if_pos hc]
      rcases hr : Enrichment.refreshJobLogos f rest with s | s <;> rw [hr] at ih <;>
        exact List.Forall₂.cons (jobLogoOnly_self jh) ih
    · rw [if_neg hc]
      rcases ho : f jh.organizationId with e | lo
      · exact List.Forall₂.cons (jobLogoOnly_self jh) (forall₂_jobLogoOnly_refl rest)
      · rcases lo with _ | logo <;>
          rcases hr : Enrichment.refreshJobLogos f rest with s | s <;> rw [hr] at ih <;>
          exact List.Forall₂.cons rfl ih

theorem refreshEducationLogos_frame (f : String → Except Unit (Option String))
    (l : List Enrichment.EducationHistory) :
    List.Forall₂ Enrichment.eduLogoOnly l (stateOf (Enrichment.refreshEducationLogos f l)) := by
  induction l with
  | nil => exact List.Forall₂.nil
  | cons eh rest ih =>
    rw [Enrichment.refreshEducationLogos]
    by_cases hc : eh.organizationId = ""
    · rw [if_pos hc]
      rcases hr : Enrichment.refreshEducationLogos f rest with s | s <;> rw [hr] at ih <;>
        exact List.Forall₂.cons (eduLogoOnly_self eh) ih
    · rw [if_neg hc]
      rcases ho : f eh.organizationId with e | lo
      · exact List.Forall₂.cons (eduLogoOnly_self eh) (forall₂_eduLogoOnly_refl rest)
      · rcases lo with _ | logo <;>
          rcases hr : Enrichment.refreshEducationLogos f rest with s | s <;> rw [hr] at ih <;>
          exact List.Forall₂.cons rfl ih

theorem overlayPreservedJobs_frame :
    ∀ (orig rest upd : List Enrichment.JobHistory),
      List.Forall₂ Enrichment.jobLogoOnly
        (orig.filter (fun j => j.companyLinkedinUrl == "") ++ rest) upd →
      List.Forall₂ (fun e e' => Enrichment.jobLogoOnly e e' ∧
          ((e.companyLinkedinUrl == "") = false → e' = e)) orig
        (Enrichment.overlayPreservedJobs upd orig) := by
  intro orig
  induction orig with
  | nil => intro rest upd h; exact List.Forall₂.nil
  | cons j js ih =>
    intro rest upd h
    by_cases hj : (j.companyLinkedinUrl == "") = true
    · rw [List.filter_cons_of_pos (by simpa using hj)] at h
      rcases h with _ | ⟨hju, htail⟩
      rename_i u upd'
      simp only [Enrichment.overlayPreservedJobs]
      rw [if_pos hj]
      exact List.Forall₂.cons ⟨hju, fun hf => absurd hj (by simp [hf])⟩ (ih rest upd' htail)
    · rw [List.filter_cons_of_neg (by simpa using hj)] at h
      simp only [Enrichment.overlayPreservedJobs]
      rw [if_neg hj]
      exact List.Forall₂.cons ⟨jobLogoOnly_self j, fun _ => rfl⟩ (ih rest upd h)

theorem overlayPreservedEdus_frame :
    ∀ (orig rest upd : List Enrichment.EducationHistory),
      List.Forall₂ Enrichment.eduLogoOnly
        (orig.filter (fun e => e.institutionLinkedinUrl == "") ++ rest) upd →
      List.Forall₂ (fun e e' => Enrichment.eduLogoOnly e e' ∧
          ((e.institutionLinkedinUrl == "") = false → e' = e)) orig
        (Enrichment.overlayPreservedEdus upd orig) := by
  intro orig
  induction orig with
  | nil => intro rest upd h; exact List.Forall₂.nil
  | cons j js ih =>
    intro rest upd h
    by_cases hj : (j.institutionLinkedinUrl == "") = true
    · rw [List.filter_cons_of_pos (by simpa using hj)] at h
      rcases h with _ | ⟨hju, htail⟩
      rename_i u upd'
      simp only [Enrichment.overlayPreservedEdus]
      rw [if_pos hj]
      exact List.Forall₂.cons ⟨hju, fun hf => absurd hj (by simp [hf])⟩ (ih rest upd' htail)
    · rw [List.filter_cons_of_neg (by simpa using hj)] at h
      simp only [Enrichment.overlayPreservedEdus]
      rw [if_neg hj]
      exact List.Forall₂.cons ⟨eduLogoOnly_self j, fun _ => rfl⟩ (ih rest upd h)

theorem logoFramed_refl (c : Enrichment.Contact) : Enrichment.logoFramed c c := by
  refine ⟨rfl, ?_, ?_⟩
  · cases c.jobHistory with
    | none => trivial
    | some l => exact List.forall₂_same.mpr (fun x _ => ⟨jobLogoOnly_self x, fun _ => rfl⟩)
  · cases c.educationHistory with
    | none => trivial
    | some l => exact List.forall₂_same.mpr (fun x _ => ⟨eduLogoOnly_self x, fun _ => rfl⟩)

theorem enrichInner_error_frame (env : Enrichment.EnrichEnv) (c mc : Enrichment.Contact)
    (log : List Enrichment.EnrichmentRecord)
    (hres : Enrichment.enrichInner env c = .error (mc, log)) :
    Enrichment.logoFramed c mc := by
  simp only [Enrichment.enrichInner] at hres
  split at hres
  · injection hres with h
    obtain ⟨rfl, rfl⟩ := Prod.mk.injEq .. |>.mp h.symm
    exact logoFramed_refl _
  · rename_i resp heq
    split at hres
    · exact absurd hres (by simp)
    · split at hres
      · rename_i exps edus hexp hedu
        split at hres
        · injection hres with h
          obtain ⟨rfl, rfl⟩ := Prod.mk.injEq .. |>.mp h.symm
          exact logoFramed_refl _
        · split at hres
          · injection hres with h
            obtain ⟨rfl, rfl⟩ := Prod.mk.injEq .. |>.mp h.symm
            exact logoFramed_refl _
          · split at hres
            · rename_i sJ hsJ
              injection hres with h
              obtain ⟨rfl, rfl⟩ := Prod.mk.injEq .. |>.mp h.symm
              refine ⟨rfl, ?_, ?_⟩
              · cases hcj : c.jobHistory with
                | none => trivial
                | some l =>
                  have hfr := refreshJobLogos_frame env.orgLogo
                    (Enrichment.mergeJobHistory ((c.jobHistory).getD [])
                      (Enrichment.buildJobHistory env.genJobId exps))
                  rw [hsJ] at hfr
                  rw [hcj] at hfr
                  rw [Enrichment.mergeJobHistory_eq] at hfr
                  exact overlayPreservedJobs_frame l _ sJ hfr
              · cases c.educationHistory with
                | none => trivial
                | some l =>
                  exact List.forall₂_same.mpr (fun x _ => ⟨eduLogoOnly_self x, fun _ => rfl⟩)
            · rename_i jobs' hjobs
              split at hres
              · rename_i sE hsE
                injection hres with h
                obtain ⟨rfl, rfl⟩ := Prod.mk.injEq .. |>.mp h.symm
                refine ⟨rfl, ?_, ?_⟩
                · cases hcj : c.jobHistory with
                  | none => trivial
                  | some l =>
                    have hfr := refreshJobLogos_frame env.orgLogo
                      (Enrichment.mergeJobHistory ((c.jobHistory).getD [])
                        (Enrichment.buildJobHistory env.genJobId exps))
                    rw [hjobs] at hfr
                    rw [hcj] at hfr
                    rw [Enrichment.mergeJobHistory_eq] at hfr
                    exact overlayPreservedJobs_frame l _ jobs' hfr
                · cases hce : c.educationHistory with
                  | none => trivial
                  | some l =>
                    have hfr := refreshEducationLogos_frame env.orgLogo
                      (Enrichment.mergeEducationHistory ((c.educationHistory).getD [])
                        (Enrichment.buildEducationHistory env.genEduId edus))
                    rw [hsE] at hfr
                    rw [hce] at hfr
                    rw [Enrichment.mergeEducationHistory_eq] at hfr
                    exact overlayPreservedEdus_frame l _ sE hfr
              · rename_i edus' hedus
                split at hres
                · exact absurd hres (by simp)
                · injection hres with h
                  obtain ⟨rfl, rfl⟩ := Prod.mk.injEq .. |>.mp h.symm
                  refine ⟨rfl, ?_, ?_⟩
                  · cases hcj : c.jobHistory with
                    | none => trivial
                    | some l =>
                      have hfr := refreshJobLogos_frame env.orgLogo
                        (Enrichment.mergeJobHistory ((c.jobHistory).getD [])
                          (Enrichment.buildJobHistory env.genJobId exps))
                      rw [hjobs] at hfr
                      rw [hcj] at hfr
                      rw [Enrichment.mergeJobHistory_eq] at hfr
                      exact overlayPreservedJobs_frame l _ jobs' hfr
                  · cases hce : c.educationHistory with
                    | none => trivial
                    | some l =>
                      have hfr := refreshEducationLogos_frame env.orgLogo
                        (Enrichment.mergeEducationHistory ((c.educationHistory).getD [])
                          (Enrichment.buildEducationHistory env.genEduId edus))
                      rw [hedus] at hfr
                      rw [hce] at hfr
                      rw [Enrichment.mergeEducationHistory_eq] at hfr
                      exact overlayPreservedEdus_frame l _ edus' hfr
      · injection hres with h
        obtain ⟨rfl, rfl⟩ := Prod.mk.injEq .. |>.mp h.symm
        exact logoFramed_refl _

/-- C2 (amended): `enrichLinkedInData` is total; a 404/400 provider code
returns the input contact unchanged with the raw response already
logged; any thrown exception is caught and returns the input contact
object — unchanged outside the history lists, whose manual entries may
already carry logos refreshed in place — and in every case the returned
contact is either the (logo-framed) input or the merged enrichment. -/
theorem C2_enrich_never_throws_amended (env : Enrichment.EnrichEnv)
    (c : Enrichment.Contact) :
    (∀ resp, env.fetchResult = .ok resp → (resp.code = some 404 ∨ resp.code = some 400) →
      Enrichment.enrichLinkedInData env c =
        (c, [{ contactId := c.id, linkedInResponse := resp }])) ∧
    (∀ mc log, Enrichment.enrichInner env c = .error (mc, log) →
      Enrichment.enrichLinkedInData env c = (mc, log) ∧ Enrichment.logoFramed c mc) ∧
    (Enrichment.logoFramed c (Enrichment.enrichLinkedInData env c).1 ∨
      ∃ resp jobs edus, env.fetchResult = .ok resp ∧
        (Enrichment.enrichLinkedInData env c).1 =
          Enrichment.enrichedContactDataOf c resp jobs edus env.now) := by
  refine ⟨?_, ?_, ?_⟩
  · intro resp hf hcode
    have hinner : Enrichment.enrichInner env c =
        .ok (c, [{ contactId := c.id, linkedInResponse := resp }]) := by
      simp only [Enrichment.enrichInner, hf, if_pos hcode]
    simp only [Enrichment.enrichLinkedInData, hinner]
  · intro mc log h
    exact ⟨by simp only [Enrichment.enrichLinkedInData, h],
      enrichInner_error_frame env c mc log h⟩
  · rcases hres : Enrichment.enrichInner env c with res | res
    · left
      have h1 : Enrichment.enrichLinkedInData env c = res := by
        simp only [Enrichment.enrichLinkedInData, hres]
      rw [h1]
      exact enrichInner_error_frame env c res.1 res.2 (by rw [hres])
    · have h1 : Enrichment.enrichLinkedInData env c = res := by
        simp only [Enrichment.enrichLinkedInData, hres]
      rw [h1]
      rcases enrichInner_ok env c res hres with hc | ⟨resp, jobs, edus, hf, hc⟩
      · left
        rw [hc]
        exact logoFramed_refl c
      · right
        exact ⟨resp, jobs, edus, hf, hc⟩

/-- The original C2 claim fails: with a manual job entry (no LinkedIn
URL) carrying a truthy `organizationId` whose organization has a logo,
an exception at the final contact update reaches the catch *after* the
logo-refresh loop mutated that aliased entry, so the returned contact
differs from the input (its `companyLogo` is now set). -/
theorem C2_enrich_never_throws_counterexample :
    (match Enrichment.enrichInner
        { fetchResult := .ok { experiences := some [], education := some [] },
          orgLogo := fun i => if i = "org1" then .ok (some "logo.png") else .ok none,
          updateOk := false }
        { id := "c1", jobHistory := some [{ id := "j1", organizationId := "org1" }] } with
      | .error _ => true
      | .ok _ => false) = true ∧
    (Enrichment.enrichLinkedInData
        { fetchResult := .ok { experiences := some [], education := some [] },
          orgLogo := fun i => if i = "org1" then .ok (some "logo.png") else .ok none,
          updateOk := false }
        { id := "c1", jobHistory := some [{ id := "j1", organizationId := "org1" }] }).1 ≠
      { id := "c1", jobHistory := some [{ id := "j1", organizationId := "org1" }] } ∧
    ((Enrichment.enrichLinkedInData
        { fetchResult := .ok { experiences := some [], education := some [] },
          orgLogo := fun i => if i = "org1" then .ok (some "logo.png") else .ok none,
          updateOk := false }
        { id := "c1", jobHistory := some [{ id := "j1", organizationId := "org1" }] }).1.jobHistory.getD
          []).map (fun j => j.companyLogo) = ["logo.png"] := by
  refine ⟨by decide, by decide, by decide⟩

/-- Witness for the amended C2 at a concrete input: a 404 provider
response leaves the contact unchanged and logs the raw response. -/
theorem C2_enrich_never_throws_amended_witness :
    Enrichment.enrichLinkedInData
        { fetchResult := .ok { code := some 404 } }
        { id := "c1", linkedin := "https://linkedin.com/in/x" } =
      ({ id := "c1", linkedin := "https://linkedin.com/in/x" },
        [{ contactId := "c1", linkedInResponse := { code := some 404 } }]) :=
  (C2_enrich_never_throws_amended { fetchResult := .ok { code := some 404 } }
    { id := "c1", linkedin := "https://linkedin.com/in/x" }).1
    { code := some 404 } rfl (by decide)

theorem ceilDiffDays_lt_30 (d : Nat) (h : d ≤ 29 * 86400000) :
    Enrichment.ceilDiffDays d < 30 := by
  unfold Enrichment.ceilDiffDays
  rw [Nat.div_lt_iff_lt_mul (by norm_num)]
  omega

theorem enrichContactHandler_skip (env : Enrichment.EnrichRequestEnv)
    (c : Enrichment.Contact) (t : Int) (hlink : c.linkedin ≠ "")
    (hlast : c.lastEnrichedAt = some t)
    (hfresh : (env.now - t).natAbs ≤ 29 * 86400000) :
    Enrichment.enrichContactHandler env c =
      { contact := some c, fetchedExternally := false } := by
  have hc30 := ceilDiffDays_lt_30 _ hfresh
  have hb : (!decide (Enrichment.ceilDiffDays (env.now - t).natAbs < 30)) = false := by
    simp [hc30]
  simp only [Enrichment.enrichContactHandler, if_neg hlink, hlast, hb, Bool.false_eq_true,
    if_false]

theorem enrichLinkedInData_linkedin (env : Enrichment.EnrichEnv)
    (c : Enrichment.Contact) (h : c.linkedin ≠ "") :
    (Enrichment.enrichLinkedInData env c).1.linkedin = c.linkedin := by
  rcases hres : Enrichment.enrichInner env c with log | res
  · have h1 : Enrichment.enrichLinkedInData env c = log := by
      simp only [Enrichment.enrichLinkedInData, hres]
    rw [h1]
    have hfr := enrichInner_error_frame env c log.1 log.2 (by rw [hres])
    have h2 := congrArg Enrichment.Contact.linkedin hfr.1
    exact h2
  · have h1 : Enrichment.enrichLinkedInData env c = res := by
      simp only [Enrichment.enrichLinkedInData, hres]
    rw [h1]
    rcases enrichInner_ok env c res hres with hc | ⟨resp, jobs, edus, -, hc⟩
    · rw [hc]
    · rw [hc]
      simp [Enrichment.enrichedContactDataOf, jsOr, h]


theorem cacheMergeContact_keeps_linkedin (c cached c₁ : Enrichment.Contact) (n : Int)
    (htrim : jsTrim c.linkedin ≠ "") (hlink : c.linkedin ≠ "")
    (hres : { Enrichment.cacheMergeContact c cached with lastEnrichedAt := some n } = c₁) :
    c₁.linkedin ≠ "" := by
  intro habs
  rw [← hres] at habs
  dsimp only at habs
  rw [Enrichment.cacheMergeContact] at habs
  dsimp only at habs
  rw [Enrichment.adoptIfBlank, if_neg htrim] at habs
  exact hlink habs

theorem enrichLinkedInData_keeps_linkedin (env : Enrichment.EnrichEnv)
    (c c₁ : Enrichment.Contact) (hlink : c.linkedin ≠ "")
    (hres : (Enrichment.enrichLinkedInData env c).1 = c₁) : c₁.linkedin ≠ "" := by
  rw [← hres, enrichLinkedInData_linkedin env c hlink]
  exact hlink

theorem cacheDecision_linkedin (env : Enrichment.EnrichRequestEnv)
    (c c₁ : Enrichment.Contact) (htrim : jsTrim c.linkedin ≠ "") (hlink : c.linkedin ≠ "")
    (hres : (Enrichment.cacheDecision env c).contact = some c₁) :
    c₁.linkedin ≠ "" := by
  unfold Enrichment.cacheDecision at hres
  split at hres
  · split at hres
    · split at hres
      · split at hres
        · dsimp only at hres
          exact cacheMergeContact_keeps_linkedin c _ c₁ env.now htrim hlink
            (Option.some.inj hres)
        · exact absurd hres (by simp)
      · dsimp only at hres
        exact enrichLinkedInData_keeps_linkedin env.enrichEnv c c₁ hlink
          (Option.some.inj hres)
    · dsimp only at hres
      exact enrichLinkedInData_keeps_linkedin env.enrichEnv c c₁ hlink
        (Option.some.inj hres)
  · dsimp only at hres
    exact enrichLinkedInData_keeps_linkedin env.enrichEnv c c₁ hlink
      (Option.some.inj hres)

theorem enrichContactHandler_linkedin (env : Enrichment.EnrichRequestEnv)
    (c c₁ : Enrichment.Contact) (htrim : jsTrim c.linkedin ≠ "")
    (hres : (Enrichment.enrichContactHandler env c).contact = some c₁) :
    c₁.linkedin ≠ "" := by
  have hlink : c.linkedin ≠ "" := by
    intro he
    rw [he] at htrim
    exact htrim (by decide)
  simp only [Enrichment.enrichContactHandler, if_neg hlink] at hres
  split at hres
  · split at hres
    · exact absurd hres (by simp)
    · exact cacheDecision_linkedin env c c₁ htrim hlink hres
  · dsimp only at hres
    intro habs
    rw [← Option.some.inj hres] at habs
    exact hlink habs

/-! ### Claim C3 (amended): the freshness window -/

/-- C3 (amended): the handler skips the external lookup and returns the
contact as-is exactly on the `Math.ceil`-rounded window — when
`lastEnrichedAt` is set and the elapsed time is at most 29 days (rather
than strictly below 30 days as claimed); consequently a second run,
within that window of the first output's `lastEnrichedAt` and with a
non-blank profile URL, fetches nothing and returns the first output
unchanged. -/
theorem C3_freshness_window_amended (env₁ env₂ : Enrichment.EnrichRequestEnv)
    (c c₁ : Enrichment.Contact) (t : Int) :
    (c.linkedin ≠ "" → c.lastEnrichedAt = some t →
      (env₁.now - t).natAbs ≤ 29 * 86400000 →
      Enrichment.enrichContactHandler env₁ c =
        { contact := some c, fetchedExternally := false }) ∧
    (jsTrim c.linkedin ≠ "" →
      (Enrichment.enrichContactHandler env₁ c).contact = some c₁ →
      c₁.lastEnrichedAt = some t →
      (env₂.now - t).natAbs ≤ 29 * 86400000 →
      Enrichment.enrichContactHandler env₂ c₁ =
        { contact := some c₁, fetchedExternally := false }) := by
  constructor
  · intro hlink hlast hfresh
    exact enrichContactHandler_skip env₁ c t hlink hlast hfresh
  · intro htrim hres hlast hfresh
    exact enrichContactHandler_skip env₂ c₁ t
      (enrichContactHandler_linkedin env₁ c c₁ htrim hres) hlast hfresh

/-- Witness for C3 (amended) at a concrete input: a contact enriched at
time `0` and re-requested at time `1000` is returned as-is without any
external fetch. -/
theorem C3_freshness_window_amended_witness :
    Enrichment.enrichContactHandler
        { now := 1000, enrichEnv := { fetchResult := .ok {} } }
        { id := "c1", linkedin := "https://linkedin.com/in/x", lastEnrichedAt := some 0 } =
      { contact := some
          { id := "c1", linkedin := "https://linkedin.com/in/x", lastEnrichedAt := some 0 },
        fetchedExternally := false } :=
  (C3_freshness_window_amended
      { now := 1000, enrichEnv := { fetchResult := .ok {} } }
      { now := 1000, enrichEnv := { fetchResult := .ok {} } }
      { id := "c1", linkedin := "https://linkedin.com/in/x", lastEnrichedAt := some 0 }
      { id := "c1" } 0).1 (by decide) rfl (by decide)

/-- Counterexample to C3 as stated: a contact last enriched 29 days and
1 millisecond ago — fewer than 30 days — is nevertheless re-fetched
externally, because the code compares `Math.ceil(elapsed / day) < 30`. -/
theorem C3_freshness_window_counterexample :
    ((2505600001 : Int) - 0).natAbs < 30 * 86400000 ∧
    (Enrichment.enrichContactHandler
        { now := 2505600001, enrichEnv := { fetchResult := .ok { code := some 404 } } }
        { id := "c1", linkedin := "https://linkedin.com/in/x",
          lastEnrichedAt := some 0 }).fetchedExternally = true := by
  constructor
  · decide
  · decide

/-! ### The welcome-flow state machine (`src/handlers/welcomeFlow.ts`)

The flow reads and writes the `contacts` store through
`getContactByJid`/`saveContact` (Firestore merge semantics) and sends
messages through the transport; both are modelled as an explicit state
carrying the store and an append-only effect log.  Generated message
texts are abstracted to tags, since AI generation only changes the
wording.  The fire-and-forget `searchAndHandleLinkedIn` call is recorded
as a detached-task effect.

JavaScript distinguishes an absent object key, a key holding
`undefined`, a key holding `null`, and a key holding a value, and
Firestore treats them differently: an absent key is untouched by a merge
write, `undefined` makes `set()` throw (the project never enables
`ignoreUndefinedProperties`), and `null` is stored and overwrites.
Payload fields are therefore four-state (`JField`); stored document
fields are `Option (Option _)` (`none` = absent, `some none` = stored
null, reading an absent field yields `undefined`). -/

/-- JavaScript `s.endsWith(suffix)`, on character lists. -/
def jsEndsWith (s suffix : String) : Bool :=
  suffix.data.reverse.isPrefixOf s.data.reverse

namespace Flow

/-- The value of one key of a JavaScript object literal: the key may be
absent, hold `undefined`, hold `null`, or hold a value. -/
inductive JField (α : Type) where
  | absent
  | undef
  | jnull
  | val (a : α)
deriving Repr, DecidableEq

/-- Whether the key is present and holds `undefined` (which makes a
Firestore `set()` throw). -/
def JField.isUndef {α : Type} : JField α → Bool
  | .undef => true
  | _ => false

/-- Embeds a `string | null` value (never `undefined`). -/
def ofNullable {α : Type} : Option α → JField α
  | some a => .val a
  | none => .jnull

/-- The JavaScript value obtained by reading a document field: an absent
field reads as `undefined`. -/
def readF {α : Type} : Option (Option α) → JField α
  | none => .undef
  | some none => .jnull
  | some (some a) => .val a

/-- A document of the `contacts` collection as `getContactByJid` returns
it (`doc.data()` only, so documents created by this flow carry a `jid`
field but never an `id` field).  `none` = field absent, `some none` =
stored null. -/
structure StoredContact where
  id : Option (Option String) := none
  jid : Option (Option String) := none
  name : Option (Option String) := none
  number : Option (Option String) := none
  email : Option (Option String) := none
  linkedinProfile : Option (Option String) := none
  status : Option (Option String) := none
  callPermission : Option (Option Bool) := none
  callScheduled : Option (Option Bool) := none
  lastMessageAt : Option (Option Int) := none
deriving Repr, DecidableEq

/-- A `saveContact` payload (`CreateContactData`). -/
structure CreateContactData where
  jid : JField String
  name : JField String := .absent
  number : JField String := .absent
  email : JField String := .absent
  linkedinProfile : JField String := .absent
  status : JField String := .absent
  callPermission : JField Bool := .absent
  callScheduled : JField Bool := .absent
  lastMessageAt : JField Int := .absent
deriving Repr, DecidableEq

/-- `set()` throws when any payload value is `undefined`. -/
def CreateContactData.hasUndefinedField (p : CreateContactData) : Bool :=
  p.name.isUndef || p.number.isUndef || p.email.isUndef ||
    p.linkedinProfile.isUndef || p.status.isUndef || p.callPermission.isUndef ||
    p.callScheduled.isUndef || p.lastMessageAt.isUndef

/-- The kind of conversational message emitted (the flow picks the kind;
AI only phrases it). -/
inductive MsgTag where
  | welcome
  | emailRequest
  | emailConfirmation
  | emailError
  | linkedinFound
  | linkedinNotFound
  | callScheduling
  | callDeclined
  | clarification
deriving Repr, DecidableEq

/-- One observable side effect of a flow run. -/
inductive FlowEffect where
  | readContact (jid : String)
  | writeContact (jid : String) (payload : CreateContactData)
  | failedWrite (payload : CreateContactData)
  | send (jid : String) (msg : MsgTag)
  | scheduleCallEffect (name : Option String) (number : String) (email : String)
  | linkedInSearch (jid : String) (email : String)
deriving Repr, DecidableEq

/-- The store plus the effect log of one run. -/
structure FlowState where
  db : String → Option StoredContact
  effects : List FlowEffect := []
  now : Int := 0

/-- The `welcomeFlowConfig` switches the control flow reads
(`enabled`, `behavior.requestEmailImmediately`, `behavior.processGroups`). -/
structure FlowConfig where
  enabled : Bool := true
  requestEmailImmediately : Bool := true
  processGroups : Bool := false
deriving Repr, DecidableEq

/-- One field of a Firestore merge write: an absent key keeps the stored
value, `null` and values overwrite (`undefined` is unreachable here
because `saveContact` fails before writing). -/
def mergeF {α : Type} (stored : Option (Option α)) : JField α → Option (Option α)
  | .absent => stored
  | .undef => stored
  | .jnull => some none
  | .val a => some (some a)

/-- Firestore `set(..., merge: true)` of a payload onto a stored
document (`id` is not a payload key and is always kept). -/
def applyMerge (st : StoredContact) (p : CreateContactData) : StoredContact :=
  { id := st.id
    jid := mergeF st.jid p.jid
    name := mergeF st.name p.name
    number := mergeF st.number p.number
    email := mergeF st.email p.email
    linkedinProfile := mergeF st.linkedinProfile p.linkedinProfile
    status := mergeF st.status p.status
    callPermission := mergeF st.callPermission p.callPermission
    callScheduled := mergeF st.callScheduled p.callScheduled
    lastMessageAt := mergeF st.lastMessageAt p.lastMessageAt }

/-- `saveContact`: `doc(jid)` throws unless the payload `jid` is a
string, and `set()` throws when any payload value is `undefined`; both
throws are caught and yield `false` without writing. -/
def saveContact (st : FlowState) (p : CreateContactData) : FlowState × Bool :=
  match p.jid with
  | .val j =>
    if p.hasUndefinedField then
      ({ st with effects := st.effects ++ [.failedWrite p] }, false)
    else
      ({ st with
          db := fun k => if k = j then some (applyMerge ((st.db j).getD {}) p) else st.db k,
          effects := st.effects ++ [.writeContact j p] }, true)
  | _ => ({ st with effects := st.effects ++ [.failedWrite p] }, false)

/-- `getContactByJid`. -/
def getContactByJid (st : FlowState) (jid : String) : FlowState × Option StoredContact :=
  ({ st with effects := st.effects ++ [.readContact jid] }, st.db jid)

/-- `sock.sendMessage` of one generated message. -/
def send (st : FlowState) (jid : String) (m : MsgTag) : FlowState :=
  { st with effects := st.effects ++ [.send jid m] }

/-- `updateContactStatus`: re-read the record and save it back keyed by
the record's `id` field (`// Map Contact.id to CreateContactData.jid`),
passing every profile field of the read record through the payload. -/
def updateContactStatus (st : FlowState) (jid : String) (status : String) : FlowState :=
  match getContactByJid st jid with
  | (st, none) => st
  | (st, some ct) =>
    (saveContact st
      { jid := readF ct.id, name := readF ct.name, number := readF ct.number,
        email := readF ct.email, linkedinProfile := readF ct.linkedinProfile,
        status := .val status, callPermission := readF ct.callPermission,
        callScheduled := readF ct.callScheduled, lastMessageAt := .val st.now }).1

/-- `handleNewContact`: create the record with status `welcome_sent`,
send the welcome message, then move to `waiting_email` when configured
to request the email immediately. -/
def handleNewContact (cfg : FlowConfig) (st : FlowState) (jid : String)
    (contactName : Option String) : FlowState :=
  let st1 := (saveContact st
    { jid := .val jid, name := ofNullable contactName,
      number := .val (firstSegment '@' jid), status := .val "welcome_sent",
      lastMessageAt := .val st.now }).1
  let st2 := send st1 jid .welcome
  if cfg.requestEmailImmediately then updateContactStatus st2 jid "waiting_email" else st2

/-- `handleEmailResponse`: a valid trimmed email is confirmed and saved
with status `email_received`, then the LinkedIn search is started in the
background; an invalid one gets the error message. -/
def handleEmailResponse (st : FlowState) (jid : String)
    (contactName : Option String) (messageText : String) : FlowState :=
  let emailCandidate := jsTrim messageText
  if validateEmail welcomeFlowEmailValidation emailCandidate then
    let st1 := send st jid .emailConfirmation
    let st2 := (saveContact st1
      { jid := .val jid, name := ofNullable contactName,
        number := .val (firstSegment '@' jid), email := .val emailCandidate,
        status := .val "email_received", lastMessageAt := .val st1.now }).1
    { st2 with effects := st2.effects ++ [.linkedInSearch jid emailCandidate] }
  else
    send st jid .emailError

/-- `handleWelcomeSent`: a non-empty message that validates as an email
is processed as the email answer; otherwise the email is requested again
and the status set to `waiting_email`. -/
def handleWelcomeSent (st : FlowState) (jid : String)
    (contactName : Option String) (messageText : String) : FlowState :=
  if !(messageText == "") && validateEmail welcomeFlowEmailValidation (jsTrim messageText) then
    handleEmailResponse st jid contactName messageText
  else
    let st1 := send st jid .emailRequest
    updateContactStatus st1 jid "waiting_email"

/-- The affirmative phrase set of `handleCallPermissionResponse`. -/
def positiveResponses : List String :=
  ["yes", "yeah", "sure", "ok", "okay", "call me", "go ahead", "sounds good", "let\x27s do it"]

/-- The negative phrase set of `handleCallPermissionResponse`. -/
def negativeResponses : List String :=
  ["no", "nope", "not now", "maybe later", "pass", "no thanks"]

/-- `positiveResponses.some(phrase => response.includes(phrase))` where
`response` is the lowercased, trimmed inbound text. -/
def isPositiveText (messageText : String) : Bool :=
  positiveResponses.any (fun phrase => strIncludes (jsTrim (jsToLower messageText)) phrase)

/-- Negative analogue of `isPositiveText`. -/
def isNegativeText (messageText : String) : Bool :=
  negativeResponses.any (fun phrase => strIncludes (jsTrim (jsToLower messageText)) phrase)

/-- JavaScript truthiness of `contact?.email` on the re-read record:
`some` exactly when the record exists and its email field holds a
non-empty string, returning that string. -/
def truthyEmail : Option StoredContact → Option String
  | some ct =>
    match ct.email with
    | some (some s) => if s == "" then none else some s
    | _ => none
  | none => none

/-- `handleCallPermissionResponse`: affirmative (checked first) sends
the scheduling confirmation, saves `callPermission = true` with status
`call_scheduled`, re-reads the contact, schedules the call only when the
record has a truthy email, and finally runs the `completed` status
update; negative sends the declined message and saves
`callPermission = false` with status `completed`; anything else asks for
clarification. -/
def handleCallPermissionResponse (st : FlowState) (jid : String)
    (contactName : Option String) (messageText : String) : FlowState :=
  if isPositiveText messageText then
    let st1 := send st jid .callScheduling
    let st2 := (saveContact st1
      { jid := .val jid, name := ofNullable contactName,
        number := .val (firstSegment '@' jid), callPermission := .val true,
        status := .val "call_scheduled", lastMessageAt := .val st1.now }).1
    match getContactByJid st2 jid with
    | (st3, contact) =>
      let st4 :=
        match truthyEmail contact with
        | some em =>
          { st3 with effects := st3.effects ++
              [.scheduleCallEffect contactName (firstSegment '@' jid) em] }
        | none => st3
      updateContactStatus st4 jid "completed"
  else if isNegativeText messageText then
    let st1 := send st jid .callDeclined
    (saveContact st1
      { jid := .val jid, name := ofNullable contactName,
        number := .val (firstSegment '@' jid), callPermission := .val false,
        status := .val "completed", lastMessageAt := .val st1.now }).1
  else
    send st jid .clarification

/-- `processWelcomeFlow`: the two gates, then dispatch on the stored
status (`contact.status || ContactStatus.NEW`). -/
def processWelcomeFlow (cfg : FlowConfig) (st : FlowState) (jid : String)
    (contactName : Option String) (messageText : String) : FlowState × Bool :=
  if !cfg.enabled then (st, false)
  else if jsEndsWith jid "@g.us" && !cfg.processGroups then (st, false)
  else
    match getContactByJid st jid with
    | (st1, none) => (handleNewContact cfg st1 jid contactName, true)
    | (st1, some ct) =>
      let status :=
        match ct.status with
        | some (some s) => if s == "" then "new" else s
        | _ => "new"
      if status == "new" || status == "welcome_sent" then
        (handleWelcomeSent st1 jid contactName messageText, true)
      else if status == "waiting_email" then
        (handleEmailResponse st1 jid contactName messageText, true)
      else if status == "email_received" then (st1, true)
      else if status == "linkedin_found" || status == "waiting_call_permission" then
        (handleCallPermissionResponse st1 jid contactName messageText, true)
      else if status == "call_scheduled" || status == "completed" || status == "call_finished" then
        (st1, false)
      else if status == "auth0_sent" then
        (updateContactStatus st1 jid "completed", false)
      else (st1, false)

end Flow

/-! ### Claim C9: the welcome-flow gates -/

/-- C9: when the welcome flow is disabled in configuration, or the
sender identity is a group chat (ending in `@g.us`) while group
processing is disabled, `processWelcomeFlow` returns `false` immediately
with the state untouched — no contact record read or write and no
message sent. -/
theorem C9_flow_gates (cfg : Flow.FlowConfig) (st : Flow.FlowState) (jid : String)
    (contactName : Option String) (messageText : String) :
    (cfg.enabled = false →
      Flow.processWelcomeFlow cfg st jid contactName messageText = (st, false)) ∧
    (jsEndsWith jid "@g.us" = true → cfg.processGroups = false →
      Flow.processWelcomeFlow cfg st jid contactName messageText = (st, false)) := by
  constructor
  · intro h
    simp [Flow.processWelcomeFlow, h]
  · intro hg hp
    rcases he : cfg.enabled with _ | _
    · simp [Flow.processWelcomeFlow, he]
    · simp [Flow.processWelcomeFlow, he, hg, hp]

/-- Witness for C9: both gates at concrete inputs. -/
theorem C9_flow_gates_witness :
    Flow.processWelcomeFlow { enabled := false } { db := fun _ => none }
        "12025550123@s.whatsapp.net" none "hello" = ({ db := fun _ => none }, false) ∧
    Flow.processWelcomeFlow { processGroups := false } { db := fun _ => none }
        "120363041@g.us" none "hello" = ({ db := fun _ => none }, false) :=
  ⟨(C9_flow_gates { enabled := false } { db := fun _ => none } "12025550123@s.whatsapp.net"
      none "hello").1 rfl,
   (C9_flow_gates { processGroups := false } { db := fun _ => none } "120363041@g.us"
      none "hello").2 (by decide) rfl⟩

namespace Flow

/-- The affirmative-branch `saveContact` payload of
`handleCallPermissionResponse`. -/
def posPayload (now : Int) (jid : String) (contactName : Option String) : CreateContactData :=
  { jid := .val jid, name := ofNullable contactName,
    number := .val (firstSegment '@' jid), callPermission := .val true,
    status := .val "call_scheduled", lastMessageAt := .val now }

/-- The negative-branch `saveContact` payload. -/
def negPayload (now : Int) (jid : String) (contactName : Option String) : CreateContactData :=
  { jid := .val jid, name := ofNullable contactName,
    number := .val (firstSegment '@' jid), callPermission := .val false,
    status := .val "completed", lastMessageAt := .val now }

end Flow

theorem ofNullable_not_undef {α : Type} (x : Option α) :
    (Flow.ofNullable x).isUndef = false := by
  cases x <;> rfl

theorem ofNullable_ne_absent {α : Type} (x : Option α) :
    Flow.mergeF none (Flow.ofNullable x) ≠ none := by
  cases x <;> simp [Flow.ofNullable, Flow.mergeF]

theorem mergeF_ofNullable_ne_none {α : Type} (y : Option (Option α)) (x : Option α) :
    Flow.mergeF y (Flow.ofNullable x) ≠ none := by
  cases x <;> simp [Flow.ofNullable, Flow.mergeF]

theorem mergeF_readF {α : Type} (x : Option (Option α)) (h : x ≠ none) :
    Flow.mergeF x (Flow.readF x) = x := by
  rcases x with _ | o
  · exact absurd rfl h
  · rcases o with _ | a <;> rfl

theorem readF_not_undef {α : Type} (x : Option (Option α)) (h : x ≠ none) :
    (Flow.readF x).isUndef = false := by
  rcases x with _ | o
  · exact absurd rfl h
  · rcases o with _ | a <;> rfl

theorem saveContact_effect (st : Flow.FlowState) (p : Flow.CreateContactData) :
    ∃ e1, (Flow.saveContact st p).1.effects = st.effects ++ [e1] ∧
      (Flow.saveContact st p).1.now = st.now ∧
      ∀ n q em, e1 ≠ Flow.FlowEffect.scheduleCallEffect n q em := by
  unfold Flow.saveContact
  split
  · split
    · exact ⟨_, rfl, rfl, fun n q em => by simp⟩
    · exact ⟨_, rfl, rfl, fun n q em => by simp⟩
  · exact ⟨_, rfl, rfl, fun n q em => by simp⟩

theorem updateContactStatus_effects (st : Flow.FlowState) (jid status : String) :
    ∃ d, (Flow.updateContactStatus st jid status).effects =
        st.effects ++ Flow.FlowEffect.readContact jid :: d ∧
      ∀ n q em, Flow.FlowEffect.scheduleCallEffect n q em ∉ d := by
  unfold Flow.updateContactStatus Flow.getContactByJid
  cases hd : st.db jid with
  | none => exact ⟨[], by simp, by simp⟩
  | some ct =>
    obtain ⟨e1, he, hn, hns⟩ := saveContact_effect
      { st with effects := st.effects ++ [Flow.FlowEffect.readContact jid] }
      { jid := Flow.readF ct.id, name := Flow.readF ct.name, number := Flow.readF ct.number,
        email := Flow.readF ct.email, linkedinProfile := Flow.readF ct.linkedinProfile,
        status := .val status, callPermission := Flow.readF ct.callPermission,
        callScheduled := Flow.readF ct.callScheduled,
        lastMessageAt := .val st.now }
    refine ⟨[e1], ?_, ?_⟩
    · rw [he]
      simp
    · intro n q em hmem
      exact hns n q em (List.mem_singleton.mp hmem).symm

theorem updateContactStatus_no_id (st : Flow.FlowState) (jid status : String)
    (ct : Flow.StoredContact) (h : st.db jid = some ct)
    (hid : ∀ j, ct.id ≠ some (some j)) :
    (Flow.updateContactStatus st jid status).db = st.db := by
  unfold Flow.updateContactStatus Flow.getContactByJid
  rw [h]
  unfold Flow.saveContact
  rcases hcid : ct.id with _ | o
  · simp [Flow.readF, hcid]
  · rcases o with _ | j
    · simp [Flow.readF, hcid]
    · exact absurd hcid (hid j)

theorem updateContactStatus_same_id (st : Flow.FlowState) (jid status : String)
    (ct : Flow.StoredContact) (h : st.db jid = some ct)
    (hid : ct.id = some (some jid))
    (hname : ct.name ≠ none) (hnum : ct.number ≠ none) (hem : ct.email ≠ none)
    (hlp : ct.linkedinProfile ≠ none) (hcp : ct.callPermission ≠ none)
    (hcs : ct.callScheduled ≠ none) :
    ∃ ctf, (Flow.updateContactStatus st jid status).db jid = some ctf ∧
      ctf.status = some (some status) ∧ ctf.callPermission = ct.callPermission := by
  have hstep : (Flow.updateContactStatus st jid status).db jid =
      some (Flow.applyMerge ct
        { jid := Flow.JField.val jid, name := Flow.readF ct.name,
          number := Flow.readF ct.number, email := Flow.readF ct.email,
          linkedinProfile := Flow.readF ct.linkedinProfile, status := .val status,
          callPermission := Flow.readF ct.callPermission,
          callScheduled := Flow.readF ct.callScheduled,
          lastMessageAt := .val st.now }) := by
    unfold Flow.updateContactStatus Flow.getContactByJid
    rw [h]
    dsimp only
    unfold Flow.saveContact
    rw [hid]
    simp only [show Flow.readF (some (some jid)) = Flow.JField.val jid from rfl]
    have hu : Flow.CreateContactData.hasUndefinedField
        { jid := Flow.JField.val jid, name := Flow.readF ct.name,
          number := Flow.readF ct.number, email := Flow.readF ct.email,
          linkedinProfile := Flow.readF ct.linkedinProfile, status := .val status,
          callPermission := Flow.readF ct.callPermission,
          callScheduled := Flow.readF ct.callScheduled,
          lastMessageAt := .val st.now } = false := by
      unfold Flow.CreateContactData.hasUndefinedField
      dsimp only
      rw [readF_not_undef ct.name hname, readF_not_undef ct.number hnum,
        readF_not_undef ct.email hem, readF_not_undef ct.linkedinProfile hlp,
        readF_not_undef ct.callPermission hcp, readF_not_undef ct.callScheduled hcs]
      rfl
    rw [hu]
    simp only [Bool.false_eq_true, if_false]
    simp [h]
  exact ⟨_, hstep, rfl, mergeF_readF ct.callPermission hcp⟩

theorem handleCallPermission_ambig (st : Flow.FlowState) (jid : String)
    (contactName : Option String) (messageText : String)
    (hpos : Flow.isPositiveText messageText = false)
    (hneg : Flow.isNegativeText messageText = false) :
    Flow.handleCallPermissionResponse st jid contactName messageText =
      Flow.send st jid Flow.MsgTag.clarification := by
  unfold Flow.handleCallPermissionResponse
  rw [hpos, hneg]
  simp

theorem handleCallPermission_neg_eq (st : Flow.FlowState) (jid : String)
    (contactName : Option String) (messageText : String)
    (hpos : Flow.isPositiveText messageText = false)
    (hneg : Flow.isNegativeText messageText = true) :
    Flow.handleCallPermissionResponse st jid contactName messageText =
      { db := fun k => if k = jid then
          some (Flow.applyMerge ((st.db jid).getD {}) (Flow.negPayload st.now jid contactName))
          else st.db k,
        effects := st.effects ++
          [Flow.FlowEffect.send jid Flow.MsgTag.callDeclined,
           Flow.FlowEffect.writeContact jid (Flow.negPayload st.now jid contactName)],
        now := st.now } := by
  unfold Flow.handleCallPermissionResponse Flow.send
  rw [hpos]
  simp only [Bool.false_eq_true, if_false]
  rw [if_pos hneg]
  unfold Flow.saveContact
  dsimp only
  have hu1 : Flow.CreateContactData.hasUndefinedField
      { jid := Flow.JField.val jid, name := Flow.ofNullable contactName,
        number := Flow.JField.val (firstSegment '@' jid),
        callPermission := Flow.JField.val false, status := Flow.JField.val "completed",
        lastMessageAt := Flow.JField.val st.now } = false := by
    unfold Flow.CreateContactData.hasUndefinedField
    dsimp only
    rw [ofNullable_not_undef]
    rfl
  rw [hu1]
  simp only [Bool.false_eq_true, if_false]
  unfold Flow.negPayload
  simp [List.append_assoc]

theorem handleCallPermission_pos_eq (st : Flow.FlowState) (jid : String)
    (contactName : Option String) (messageText : String) (ct : Flow.StoredContact)
    (hpos : Flow.isPositiveText messageText = true)
    (hread : st.db jid = some ct) :
    Flow.handleCallPermissionResponse st jid contactName messageText =
      Flow.updateContactStatus
        { db := fun k => if k = jid then
            some (Flow.applyMerge ct (Flow.posPayload st.now jid contactName)) else st.db k,
          effects := st.effects ++
            ([Flow.FlowEffect.send jid Flow.MsgTag.callScheduling,
              Flow.FlowEffect.writeContact jid (Flow.posPayload st.now jid contactName),
              Flow.FlowEffect.readContact jid] ++
            (match Flow.truthyEmail
                (some (Flow.applyMerge ct (Flow.posPayload st.now jid contactName))) with
             | some em => [Flow.FlowEffect.scheduleCallEffect contactName (firstSegment '@' jid) em]
             | none => [])),
          now := st.now } jid "completed" := by
  unfold Flow.handleCallPermissionResponse Flow.send Flow.getContactByJid
  rw [if_pos hpos]
  unfold Flow.saveContact
  dsimp only
  have hu1 : Flow.CreateContactData.hasUndefinedField
      { jid := Flow.JField.val jid, name := Flow.ofNullable contactName,
        number := Flow.JField.val (firstSegment '@' jid),
        callPermission := Flow.JField.val true, status := Flow.JField.val "call_scheduled",
        lastMessageAt := Flow.JField.val st.now } = false := by
    unfold Flow.CreateContactData.hasUndefinedField
    dsimp only
    rw [ofNullable_not_undef]
    rfl
  rw [hu1]
  simp only [Bool.false_eq_true, if_false]
  simp only [if_true]
  rw [hread]
  simp only [Option.getD_some]
  unfold Flow.posPayload
  cases hte : Flow.truthyEmail
      (some (Flow.applyMerge ct
        { jid := Flow.JField.val jid, name := Flow.ofNullable contactName,
          number := Flow.JField.val (firstSegment '@' jid),
          callPermission := Flow.JField.val true, status := Flow.JField.val "call_scheduled",
          lastMessageAt := Flow.JField.val st.now })) with
  | none => simp [List.append_assoc]
  | some em => simp [List.append_assoc]

theorem processWelcomeFlow_call_permission (cfg : Flow.FlowConfig) (st : Flow.FlowState)
    (jid : String) (contactName : Option String) (messageText : String)
    (ct : Flow.StoredContact)
    (henabled : cfg.enabled = true) (hgroup : jsEndsWith jid "@g.us" = false)
    (hread : st.db jid = some ct)
    (hstatus : ct.status = some (some "linkedin_found") ∨
      ct.status = some (some "waiting_call_permission")) :
    Flow.processWelcomeFlow cfg st jid contactName messageText =
      (Flow.handleCallPermissionResponse
        { db := st.db, effects := st.effects ++ [Flow.FlowEffect.readContact jid],
          now := st.now } jid contactName messageText, true) := by
  unfold Flow.processWelcomeFlow Flow.getContactByJid
  rw [henabled, hgroup, hread]
  dsimp only
  rcases hstatus with hs | hs <;> rw [hs] <;> simp

/-! ### Claim C7 (amended): call-permission handling -/

/-- C7 (amended): with the flow enabled and a non-group sender in state
`linkedin_found` or `waiting_call_permission`, the inbound text is
classified by case-insensitive substring containment (affirmative
checked before negative).  Affirmative: the scheduling confirmation is
sent, `callPermission = true` with status `call_scheduled` is persisted,
the call-scheduling collaborator is invoked **only if** the re-read
record has a truthy email, and the final `completed` update is keyed by
the record's stored `id` — absent on records this flow creates, so the
status then stays `call_scheduled`; it reaches `completed` only when the
record carries `id = jid` and fully populated optional fields.
Negative: `callPermission = false` with status `completed` is persisted
and the declined message sent.  Ambiguous: only a clarification prompt
is sent and the store is untouched. -/
theorem C7_call_permission_amended (cfg : Flow.FlowConfig) (st : Flow.FlowState)
    (jid : String) (contactName : Option String) (messageText : String)
    (ct : Flow.StoredContact)
    (henabled : cfg.enabled = true) (hgroup : jsEndsWith jid "@g.us" = false)
    (hread : st.db jid = some ct)
    (hstatus : ct.status = some (some "linkedin_found") ∨
      ct.status = some (some "waiting_call_permission")) :
    (Flow.processWelcomeFlow cfg st jid contactName messageText).2 = true ∧
    (Flow.isPositiveText messageText = true →
      Flow.FlowEffect.send jid Flow.MsgTag.callScheduling ∈
        (Flow.processWelcomeFlow cfg st jid contactName messageText).1.effects ∧
      (∀ s, ct.email = some (some s) → s ≠ "" →
        Flow.FlowEffect.scheduleCallEffect contactName (firstSegment '@' jid) s ∈
          (Flow.processWelcomeFlow cfg st jid contactName messageText).1.effects) ∧
      ((∀ s, ct.email = some (some s) → s = "") →
        ∀ n q em, Flow.FlowEffect.scheduleCallEffect n q em ∈
            (Flow.processWelcomeFlow cfg st jid contactName messageText).1.effects →
          Flow.FlowEffect.scheduleCallEffect n q em ∈ st.effects) ∧
      ((∀ j, ct.id ≠ some (some j)) →
        ∃ ctf, (Flow.processWelcomeFlow cfg st jid contactName messageText).1.db jid =
            some ctf ∧
          ctf.callPermission = some (some true) ∧
          ctf.status = some (some "call_scheduled")) ∧
      (ct.id = some (some jid) → ct.email ≠ none → ct.linkedinProfile ≠ none →
        ct.callScheduled ≠ none →
        ∃ ctf, (Flow.processWelcomeFlow cfg st jid contactName messageText).1.db jid =
            some ctf ∧
          ctf.callPermission = some (some true) ∧
          ctf.status = some (some "completed"))) ∧
    (Flow.isPositiveText messageText = false → Flow.isNegativeText messageText = true →
      Flow.FlowEffect.send jid Flow.MsgTag.callDeclined ∈
        (Flow.processWelcomeFlow cfg st jid contactName messageText).1.effects ∧
      ∃ ctf, (Flow.processWelcomeFlow cfg st jid contactName messageText).1.db jid =
          some ctf ∧
        ctf.callPermission = some (some false) ∧ ctf.status = some (some "completed")) ∧
    (Flow.isPositiveText messageText = false → Flow.isNegativeText messageText = false →
      (Flow.processWelcomeFlow cfg st jid contactName messageText).1.db = st.db ∧
      (Flow.processWelcomeFlow cfg st jid contactName messageText).1.effects =
        st.effects ++ [Flow.FlowEffect.readContact jid,
          Flow.FlowEffect.send jid Flow.MsgTag.clarification]) := by
  have hdisp := processWelcomeFlow_call_permission cfg st jid contactName messageText ct
    henabled hgroup hread hstatus
  have hres1 : (Flow.processWelcomeFlow cfg st jid contactName messageText).1 =
      Flow.handleCallPermissionResponse
        { db := st.db, effects := st.effects ++ [Flow.FlowEffect.readContact jid],
          now := st.now } jid contactName messageText := by
    rw [hdisp]
  refine ⟨by rw [hdisp], ?_, ?_, ?_⟩
  · intro hpos
    have hposeq := handleCallPermission_pos_eq
      { db := st.db, effects := st.effects ++ [Flow.FlowEffect.readContact jid],
        now := st.now } jid contactName messageText ct hpos hread
    dsimp only at hposeq
    obtain ⟨d, hd, hnos⟩ := updateContactStatus_effects
      { db := fun k => if k = jid then
          some (Flow.applyMerge ct (Flow.posPayload st.now jid contactName)) else st.db k,
        effects := (st.effects ++ [Flow.FlowEffect.readContact jid]) ++
          ([Flow.FlowEffect.send jid Flow.MsgTag.callScheduling,
            Flow.FlowEffect.writeContact jid (Flow.posPayload st.now jid contactName),
            Flow.FlowEffect.readContact jid] ++
          (match Flow.truthyEmail
              (some (Flow.applyMerge ct (Flow.posPayload st.now jid contactName))) with
           | some em => [Flow.FlowEffect.scheduleCallEffect contactName (firstSegment '@' jid) em]
           | none => [])),
        now := st.now } jid "completed"
    refine ⟨?_, ?_, ?_, ?_, ?_⟩
    · rw [hres1, hposeq]
      rw [hd]
      simp
    · intro s hs hne
      have hte : Flow.truthyEmail
          (some (Flow.applyMerge ct (Flow.posPayload st.now jid contactName))) = some s := by
        simp [Flow.truthyEmail, Flow.applyMerge, Flow.posPayload, Flow.mergeF, hs, hne]
      rw [hres1, hposeq, hd]
      rw [hte] at hd ⊢
      simp
    · intro hall n q em hmem
      have hte : Flow.truthyEmail
          (some (Flow.applyMerge ct (Flow.posPayload st.now jid contactName))) = none := by
        rcases hcte : ct.email with _ | o
        · simp [Flow.truthyEmail, Flow.applyMerge, Flow.posPayload, Flow.mergeF, hcte]
        · rcases o with _ | s
          · simp [Flow.truthyEmail, Flow.applyMerge, Flow.posPayload, Flow.mergeF, hcte]
          · have hs0 := hall s hcte
            simp [Flow.truthyEmail, Flow.applyMerge, Flow.posPayload, Flow.mergeF, hcte, hs0]
      rw [hres1, hposeq, hd, hte] at hmem
      simp [List.mem_append, List.mem_cons] at hmem
      rcases hmem with hmem | hmem
      · exact hmem
      · exact absurd hmem (hnos n q em)
    · intro hid
      rw [hres1, hposeq]
      have hdb := updateContactStatus_no_id
        { db := fun k => if k = jid then
            some (Flow.applyMerge ct (Flow.posPayload st.now jid contactName)) else st.db k,
          effects := (st.effects ++ [Flow.FlowEffect.readContact jid]) ++
            ([Flow.FlowEffect.send jid Flow.MsgTag.callScheduling,
              Flow.FlowEffect.writeContact jid (Flow.posPayload st.now jid contactName),
              Flow.FlowEffect.readContact jid] ++
            (match Flow.truthyEmail
                (some (Flow.applyMerge ct (Flow.posPayload st.now jid contactName))) with
             | some em => [Flow.FlowEffect.scheduleCallEffect contactName (firstSegment '@' jid) em]
             | none => [])),
          now := st.now } jid "completed"
        (Flow.applyMerge ct (Flow.posPayload st.now jid contactName))
        (by simp) (fun j h => hid j h)
      rw [hdb]
      refine ⟨Flow.applyMerge ct (Flow.posPayload st.now jid contactName), by simp, rfl, rfl⟩
    · intro hid hem hlp hcs
      rw [hres1, hposeq]
      obtain ⟨ctf, hctf, hst, hcp⟩ := updateContactStatus_same_id
        { db := fun k => if k = jid then
            some (Flow.applyMerge ct (Flow.posPayload st.now jid contactName)) else st.db k,
          effects := (st.effects ++ [Flow.FlowEffect.readContact jid]) ++
            ([Flow.FlowEffect.send jid Flow.MsgTag.callScheduling,
              Flow.FlowEffect.writeContact jid (Flow.posPayload st.now jid contactName),
              Flow.FlowEffect.readContact jid] ++
            (match Flow.truthyEmail
                (some (Flow.applyMerge ct (Flow.posPayload st.now jid contactName))) with
             | some em => [Flow.FlowEffect.scheduleCallEffect contactName (firstSegment '@' jid) em]
             | none => [])),
          now := st.now } jid "completed"
        (Flow.applyMerge ct (Flow.posPayload st.now jid contactName))
        (by simp) hid (mergeF_ofNullable_ne_none ct.name contactName)
        (by simp [Flow.applyMerge, Flow.posPayload, Flow.mergeF]) hem hlp
        (by simp [Flow.applyMerge, Flow.posPayload, Flow.mergeF]) hcs
      exact ⟨ctf, hctf, hcp, hst⟩
  · intro hpos hneg
    have hnegeq := handleCallPermission_neg_eq
      { db := st.db, effects := st.effects ++ [Flow.FlowEffect.readContact jid],
        now := st.now } jid contactName messageText hpos hneg
    dsimp only at hnegeq
    rw [hres1, hnegeq]
    constructor
    · simp
    · refine ⟨Flow.applyMerge ct (Flow.negPayload st.now jid contactName), ?_, rfl, rfl⟩
      simp [hread]
  · intro hpos hneg
    have hameq := handleCallPermission_ambig
      { db := st.db, effects := st.effects ++ [Flow.FlowEffect.readContact jid],
        now := st.now } jid contactName messageText hpos hneg
    rw [hres1, hameq]
    exact ⟨rfl, by simp [Flow.send]⟩

/-- The original C7 claim fails: a contact record created by this flow
(no stored `id`, no email yet) in `waiting_call_permission` answering
"yes" takes the affirmative path — the scheduling confirmation is sent —
but the call-scheduling collaborator is never invoked (no truthy email
on the re-read record) and the final status stays `call_scheduled`: the
`completed` update is keyed by the record's absent `id` and fails
silently. -/
theorem C7_call_permission_counterexample :
    (Flow.processWelcomeFlow {}
        { db := fun k => if k = "15550001111@s.whatsapp.net" then
            some { jid := some (some "15550001111@s.whatsapp.net"),
                   status := some (some "waiting_call_permission") }
          else none }
        "15550001111@s.whatsapp.net" none "yes").2 = true ∧
    Flow.FlowEffect.send "15550001111@s.whatsapp.net" Flow.MsgTag.callScheduling ∈
      (Flow.processWelcomeFlow {}
        { db := fun k => if k = "15550001111@s.whatsapp.net" then
            some { jid := some (some "15550001111@s.whatsapp.net"),
                   status := some (some "waiting_call_permission") }
          else none }
        "15550001111@s.whatsapp.net" none "yes").1.effects ∧
    ((Flow.processWelcomeFlow {}
        { db := fun k => if k = "15550001111@s.whatsapp.net" then
            some { jid := some (some "15550001111@s.whatsapp.net"),
                   status := some (some "waiting_call_permission") }
          else none }
        "15550001111@s.whatsapp.net" none "yes").1.effects.all
      (fun e => match e with
        | Flow.FlowEffect.scheduleCallEffect _ _ _ => false
        | _ => true)) = true ∧
    ((Flow.processWelcomeFlow {}
        { db := fun k => if k = "15550001111@s.whatsapp.net" then
            some { jid := some (some "15550001111@s.whatsapp.net"),
                   status := some (some "waiting_call_permission") }
          else none }
        "15550001111@s.whatsapp.net" none "yes").1.db "15550001111@s.whatsapp.net").map
        (fun c => c.status) = some (some (some "call_scheduled")) := by
  refine ⟨by decide, by decide, by decide, by decide⟩

/-- Witness for the amended C7: a record in `linkedin_found` with a
stored email answering "yes" is handled and does invoke the
call-scheduling collaborator with that email. -/
theorem C7_call_permission_amended_witness :
    (Flow.processWelcomeFlow {}
        { db := fun k => if k = "15550001111@s.whatsapp.net" then
            some { jid := some (some "15550001111@s.whatsapp.net"),
                   email := some (some "pat@example.com"),
                   status := some (some "linkedin_found") }
          else none }
        "15550001111@s.whatsapp.net" (some "Pat") "yes").2 = true ∧
    Flow.FlowEffect.scheduleCallEffect (some "Pat")
        (firstSegment '@' "15550001111@s.whatsapp.net") "pat@example.com" ∈
      (Flow.processWelcomeFlow {}
        { db := fun k => if k = "15550001111@s.whatsapp.net" then
            some { jid := some (some "15550001111@s.whatsapp.net"),
                   email := some (some "pat@example.com"),
                   status := some (some "linkedin_found") }
          else none }
        "15550001111@s.whatsapp.net" (some "Pat") "yes").1.effects := by
  have h := C7_call_permission_amended {}
    { db := fun k => if k = "15550001111@s.whatsapp.net" then
        some { jid := some (some "15550001111@s.whatsapp.net"),
               email := some (some "pat@example.com"),
               status := some (some "linkedin_found") }
      else none }
    "15550001111@s.whatsapp.net" (some "Pat") "yes"
    { jid := some (some "15550001111@s.whatsapp.net"),
      email := some (some "pat@example.com"),
      status := some (some "linkedin_found") }
    rfl (by decide) (by decide) (Or.inl rfl)
  exact ⟨h.1, (h.2.1 (by decide)).2.1 "pat@example.com" rfl (by decide)⟩


end HackTheChat
